import Mathlib

/-!
Shallow embedding of the falcon screen-persistence subsystem
(src/falcon/database.py and src/falcon/strategy.py).

The SQLite database is modelled as an in-memory state: the two tables
`screen_runs` and `screen_results` are lists of rows kept in insertion
(AUTOINCREMENT id) order, together with the next fresh id for each table.
SQLite REAL columns are modelled as rationals (the spec's numeric examples
are exact), TEXT as String, nullable columns as Option.  SQL ORDER BY is
modelled as a stable sort on the stored row order, GROUP BY as
grouping in ascending key order, and timestamp comparison as lexicographic
string comparison exactly as SQLite compares TEXT.  Wall-clock-derived
cutoffs (datetime.now() - timedelta(days)) are passed in as an explicit
`cutoff` string argument, since the clock is an external input.
A Python ZeroDivisionError (rollback, exception propagates) is modelled by
Except.error leaving the state unchanged.
-/

namespace Falcon

/-- Record of a screening strategy execution (dataclass ScreenRun /
table screen_runs).  `filters` holds the stored JSON text. -/
structure ScreenRun where
  id : Nat
  strategy_name : String
  scan_code : String
  executed_at : String
  result_count : Nat
  filters : Option String
  bias : String
  style : String
  deriving Repr, DecidableEq

/-- Screen result row (dataclass StoredScreenResult / table screen_results).
The `exchange` field stays optional to mirror from_row, which decodes
whatever the fetched row holds; the schema declares the column NOT NULL,
and the write path enforces it: an INSERT binding None raises
IntegrityError (see save_screen_run), so committed rows never hold none. -/
structure StoredScreenResult where
  id : Nat
  run_id : Nat
  symbol : String
  exchange : Option String
  contract_id : Int
  rank : Int
  distance : Option String
  benchmark : Option String
  price_at_screen : Option ℚ
  volume_at_screen : Option Int
  price_1d_later : Option ℚ
  price_1w_later : Option ℚ
  price_1m_later : Option ℚ
  return_1d : Option ℚ
  return_1w : Option ℚ
  return_1m : Option ℚ
  deriving Repr, DecidableEq

/-- In-memory result produced by the screener (dataclass ScreenResult in
src/falcon/screener.py). -/
structure ScreenResult where
  symbol : String
  rank : Int
  contract_id : Int
  price : Option ℚ
  volume : Option Int
  impl_volatility : Option ℚ
  exchange : Option String
  currency : Option String
  distance : Option String
  benchmark : Option String
  projection : Option String
  legs_str : Option String
  deriving Repr, DecidableEq

/-- The fields of ScreeningStrategy (src/falcon/strategy.py) that the
write path of the database reads: `strategy.name`, `strategy.scan_code`,
`json.dumps(strategy.filters.to_dict())` (kept as an opaque JSON string),
`strategy.bias.value` and `strategy.style.value` (their string values). -/
structure ScreeningStrategy where
  name : String
  scan_code : String
  filtersJson : String
  bias : String
  style : String
  deriving Repr, DecidableEq

/-- State of the SQLite database file: both tables in insertion order plus
the next AUTOINCREMENT id of each. -/
structure ScreenDatabase where
  runs : List ScreenRun
  results : List StoredScreenResult
  next_run_id : Nat
  next_result_id : Nat
  deriving Repr, DecidableEq

/-- Python truthiness of an optional float: None and 0.0 are falsy
(the guards `if price_1d` in update_result_prices). -/
def optTruthy (x : Option ℚ) : Bool :=
  match x with
  | none => false
  | some v => v != 0

/-- Python truthiness of an optional string: None and the empty string are
falsy (the guards `if strategy_name` in the query methods). -/
def strTruthy (x : Option String) : Bool :=
  match x with
  | none => false
  | some s => s != ""

/-- SQLite TEXT comparison `a < b` as a Bool: String < in Lean is defined
as lexicographic < on the character lists, which matches SQLite memcmp
ordering on the ASCII ISO-8601 timestamps used here. -/
def strLtB (a b : String) : Bool := decide (a.data < b.data)

/-- strLtB decides the String < order. -/
theorem strLtB_iff (a b : String) : strLtB a b = true ↔ a < b := by
  unfold strLtB
  rw [decide_eq_true_eq, String.lt_iff_toList_lt]
  exact Iff.rfl

/-- strLtB is false exactly on the complement, i.e. on String ≤ reversed. -/
theorem strLtB_false_iff (a b : String) : strLtB a b = false ↔ ¬ a < b := by
  rw [← strLtB_iff]
  cases strLtB a b <;> simp

/-- One horizon of the return computation in update_result_prices:
`((price - price_at_screen) / price_at_screen * 100) if price else None`. -/
def horizonReturn (price_at_screen : ℚ) (price : Option ℚ) : Option ℚ :=
  if optTruthy price then some ((price.getD 0 - price_at_screen) / price_at_screen * 100)
  else none

/-- The SET clause of the UPDATE in update_result_prices: all six
price/return columns of the row are overwritten with the supplied prices
and the returns computed from them. -/
def updatedRow (row : StoredScreenResult) (price_at_screen : ℚ)
    (price_1d price_1w price_1m : Option ℚ) : StoredScreenResult :=
  { row with
    price_1d_later := price_1d
    price_1w_later := price_1w
    price_1m_later := price_1m
    return_1d := horizonReturn price_at_screen price_1d
    return_1w := horizonReturn price_at_screen price_1w
    return_1m := horizonReturn price_at_screen price_1m }

/-- ScreenDatabase.update_result_prices (database.py lines 411-456).
Looks up `price_at_screen` of the first row with the given id; if the row
is missing or the value is NULL, returns with no change.  Otherwise each
return is computed as `((price - price_at_screen) / price_at_screen * 100)
if price else None`; a truthy horizon price with `price_at_screen = 0`
raises ZeroDivisionError (transaction rolled back).  The UPDATE then
overwrites all six price/return columns of the row. -/
def update_result_prices (db : ScreenDatabase) (result_id : Nat)
    (price_1d price_1w price_1m : Option ℚ) : Except String ScreenDatabase :=
  match (db.results.find? (fun s => s.id == result_id)) with
  | none => Except.ok db
  | some row =>
    match row.price_at_screen with
    | none => Except.ok db
    | some price_at_screen =>
      if price_at_screen = 0 ∧
          (optTruthy price_1d || optTruthy price_1w || optTruthy price_1m) then
        Except.error "ZeroDivisionError"
      else
        Except.ok { db with
          results := db.results.map (fun s =>
            if s.id == result_id then
              updatedRow s price_at_screen price_1d price_1w price_1m
            else s) }

/-- Fresh screen_results row inserted by save_screen_run (database.py lines
259-272): only run_id, symbol, exchange, contract_id, rank, distance and
benchmark are supplied; every other column takes its NULL default.  A row
built from a result with exchange none violates the NOT NULL constraint
and is never committed: save_screen_run raises IntegrityError and rolls
back before any such row becomes visible. -/
def mkStoredRow (rowid : Nat) (run_id : Nat) (r : ScreenResult) : StoredScreenResult :=
  { id := rowid, run_id := run_id, symbol := r.symbol, exchange := r.exchange,
    contract_id := r.contract_id, rank := r.rank, distance := r.distance,
    benchmark := r.benchmark, price_at_screen := none, volume_at_screen := none,
    price_1d_later := none, price_1w_later := none, price_1m_later := none,
    return_1d := none, return_1w := none, return_1m := none }

/-- Rows appended by the insert loop of save_screen_run, with consecutive
AUTOINCREMENT ids starting at next_id. -/
def insertResultRows (next_id run_id : Nat) : List ScreenResult → List StoredScreenResult
  | [] => []
  | r :: rest => mkStoredRow next_id run_id r :: insertResultRows (next_id + 1) run_id rest

/-- The state committed by a successful save_screen_run transaction,
together with the fresh run id it returns: one screen_runs row with
result_count = len(results) and one screen_results row per result, all
tagged with the fresh run id. -/
def saveCommitted (db : ScreenDatabase) (strategy : ScreeningStrategy)
    (results : List ScreenResult) (executed_at : String) : ScreenDatabase × Nat :=
  let run_id := db.next_run_id
  let run : ScreenRun :=
    { id := run_id, strategy_name := strategy.name, scan_code := strategy.scan_code,
      executed_at := executed_at, result_count := results.length,
      filters := some strategy.filtersJson, bias := strategy.bias, style := strategy.style }
  ({ runs := db.runs ++ [run],
     results := db.results ++ insertResultRows db.next_result_id run_id results,
     next_run_id := run_id + 1,
     next_result_id := db.next_result_id + results.length }, run_id)

/-- ScreenDatabase.save_screen_run (database.py lines 216-274): inserts one
screen_runs row with result_count = len(results) and one screen_results
row per result, all tagged with the fresh run id, and returns that id.
The screen_results.exchange column is declared NOT NULL (line 176) while
the in-memory ScreenResult.exchange is optional (screener.py line 24), so
a result with exchange None makes its INSERT raise sqlite3.IntegrityError;
the _get_connection context manager rolls back the whole transaction (run
row and earlier result rows included) and re-raises, leaving the database
unchanged — modelled as an error with no state change.  `executed_at` is
a parameter; the Python default datetime.now().isoformat() is an external
clock input. -/
def save_screen_run (db : ScreenDatabase) (strategy : ScreeningStrategy)
    (results : List ScreenResult) (executed_at : String) :
    Except String (ScreenDatabase × Nat) :=
  if results.any (fun r => r.exchange.isNone) then Except.error "IntegrityError"
  else Except.ok (saveCommitted db strategy results executed_at)

/-- ScreenDatabase.get_screen_run (database.py lines 276-285):
SELECT * FROM screen_runs WHERE id = ? with fetchone. -/
def get_screen_run (db : ScreenDatabase) (run_id : Nat) : Option ScreenRun :=
  db.runs.find? (fun r => r.id == run_id)

/-- The ORDER BY rank comparator of get_screen_results. -/
def rankLe (a b : StoredScreenResult) : Bool := decide (a.rank ≤ b.rank)

/-- The ORDER BY rank order as a decidable relation. -/
def rankLEP (a b : StoredScreenResult) : Prop := rankLe a b = true

instance : DecidableRel rankLEP :=
  fun a b => inferInstanceAs (Decidable (rankLe a b = true))

/-- ScreenDatabase.get_screen_results (database.py lines 287-295):
SELECT * FROM screen_results WHERE run_id = ? ORDER BY rank.
ORDER BY is modelled as a stable sort of the stored row order. -/
def get_screen_results (db : ScreenDatabase) (run_id : Nat) : List StoredScreenResult :=
  (db.results.filter (fun s => s.run_id == run_id)).insertionSort rankLEP

/-- Python guard `if strategy_name:` wrapped around the optional strategy
filter of the query methods: None and "" disable the filter. -/
def runMatchesStrategy (strategy_name : Option String) (r : ScreenRun) : Bool :=
  if strTruthy strategy_name then r.strategy_name == strategy_name.getD "" else true

/-- The ORDER BY executed_at DESC comparator of get_recent_runs: run a
sorts no later than run b when b.executed_at ≤ a.executed_at. -/
def runRecentLe (a b : ScreenRun) : Bool := !(strLtB a.executed_at b.executed_at)

/-- The ORDER BY executed_at DESC order as a decidable relation. -/
def runRecentLEP (a b : ScreenRun) : Prop := runRecentLe a b = true

instance : DecidableRel runRecentLEP :=
  fun a b => inferInstanceAs (Decidable (runRecentLe a b = true))

/-- ScreenDatabase.get_recent_runs (database.py lines 297-329):
SELECT * FROM screen_runs [WHERE strategy_name = ?] ORDER BY executed_at
DESC LIMIT ?.  ORDER BY is a stable sort of the stored row order. -/
def get_recent_runs (db : ScreenDatabase) (strategy_name : Option String)
    (limit : Nat) : List ScreenRun :=
  ((db.runs.filter (runMatchesStrategy strategy_name)).insertionSort runRecentLEP).take limit

/-- SQL inner join screen_results s JOIN screen_runs r ON s.run_id = r.id:
every (result, run) pair whose ids match. -/
def sqlJoin (db : ScreenDatabase) : List (StoredScreenResult × ScreenRun) :=
  db.results.flatMap (fun s =>
    (db.runs.filter (fun r => r.id == s.run_id)).map (fun r => (s, r)))

/-- SQL predicate `return_1d > 0` (NULL compares to nothing). -/
def optPos (x : Option ℚ) : Bool :=
  match x with
  | none => false
  | some v => decide (0 < v)

/-- SQL predicate `return_1d < 0` (NULL compares to nothing). -/
def optNeg (x : Option ℚ) : Bool :=
  match x with
  | none => false
  | some v => decide (v < 0)

/-- SQL AVG over a nullable column: NULL values are ignored, and the result
is NULL when no non-NULL value remains. -/
def sqlAvg (xs : List (Option ℚ)) : Option ℚ :=
  let vs := xs.filterMap id
  if vs.length = 0 then none else some (vs.sum / (vs.length : ℚ))

/-- The aggregate record returned by get_strategy_statistics. -/
structure StrategyStatistics where
  strategy_name : String
  period_days : Nat
  total_runs : Nat
  total_results : Nat
  avg_results_per_run : ℚ
  avg_return_1d : Option ℚ
  avg_return_1w : Option ℚ
  avg_return_1m : Option ℚ
  winners_1d : Nat
  losers_1d : Nat
  total_with_backtest_data : Nat
  deriving Repr, DecidableEq

/-- ScreenDatabase.get_strategy_statistics (database.py lines 458-521).
Run-level query: COUNT(*), SUM(result_count), AVG(result_count) over
screen_runs rows of the strategy with executed_at >= cutoff (SUM and AVG
are NULL on an empty set, mapped to 0 by the Python `or 0`).  Result-level
query: AVG of each return column, COUNT(CASE WHEN return_1d > 0),
COUNT(CASE WHEN return_1d < 0) and COUNT(return_1d) over joined rows of
the strategy within the cutoff having return_1d IS NOT NULL.  The three
AVG return values are passed through without `or 0`. -/
def statWindow (strategy_name : String) (cutoff : String) (r : ScreenRun) : Bool :=
  r.strategy_name == strategy_name && !(strLtB r.executed_at cutoff)

/-- The screen_runs rows aggregated by the run-level query of
get_strategy_statistics. -/
def statRuns (db : ScreenDatabase) (strategy_name : String) (cutoff : String) :
    List ScreenRun :=
  db.runs.filter (statWindow strategy_name cutoff)

/-- The joined rows aggregated by the result-level query of
get_strategy_statistics: rows of the strategy within the cutoff having
return_1d IS NOT NULL. -/
def statRows (db : ScreenDatabase) (strategy_name : String) (cutoff : String) :
    List (StoredScreenResult × ScreenRun) :=
  (sqlJoin db).filter (fun p => statWindow strategy_name cutoff p.2 && p.1.return_1d.isSome)

def get_strategy_statistics (db : ScreenDatabase) (strategy_name : String)
    (cutoff : String) (days_back : Nat) : StrategyStatistics :=
  let runsF := statRuns db strategy_name cutoff
  let sum_results : Option Nat :=
    if runsF.isEmpty then none else some ((runsF.map (fun r => r.result_count)).sum)
  let avg_results : Option ℚ :=
    if runsF.isEmpty then none
    else some (((runsF.map (fun r => (r.result_count : ℚ))).sum) / (runsF.length : ℚ))
  let rows := statRows db strategy_name cutoff
  { strategy_name := strategy_name
    period_days := days_back
    total_runs := runsF.length
    total_results := sum_results.getD 0
    avg_results_per_run := avg_results.getD 0
    avg_return_1d := sqlAvg (rows.map (fun p => p.1.return_1d))
    avg_return_1w := sqlAvg (rows.map (fun p => p.1.return_1w))
    avg_return_1m := sqlAvg (rows.map (fun p => p.1.return_1m))
    winners_1d := rows.countP (fun p => optPos p.1.return_1d)
    losers_1d := rows.countP (fun p => optNeg p.1.return_1d)
    total_with_backtest_data := rows.countP (fun p => p.1.return_1d.isSome) }

/-- Ascending String comparator (the GROUP BY symbol scan order). -/
def symLe (a b : String) : Bool := !(strLtB b a)

/-- The ascending symbol order as a decidable relation. -/
def symLEP (a b : String) : Prop := symLe a b = true

instance : DecidableRel symLEP :=
  fun a b => inferInstanceAs (Decidable (symLe a b = true))

/-- The ORDER BY appearances DESC comparator of get_top_symbols. -/
def countDescLe (a b : String × Nat) : Bool := decide (b.2 ≤ a.2)

/-- The ORDER BY appearances DESC order as a decidable relation. -/
def countDescLEP (a b : String × Nat) : Prop := countDescLe a b = true

instance : DecidableRel countDescLEP :=
  fun a b => inferInstanceAs (Decidable (countDescLe a b = true))

/-- ScreenDatabase.get_top_symbols (database.py lines 523-567).
Joined rows of the window (optionally restricted to one strategy) are
grouped by symbol — SQLite emits one group row per distinct symbol,
scanned in ascending symbol order (the (symbol, run_id) index / grouping
b-tree) — then ORDER BY appearances DESC is a stable sort of the group
rows and LIMIT truncates. -/
def windowPred (strategy_name : Option String) (cutoff : String) (r : ScreenRun) : Bool :=
  (if strTruthy strategy_name then r.strategy_name == strategy_name.getD "" else true)
    && !(strLtB r.executed_at cutoff)

def topSymbolRows (db : ScreenDatabase) (strategy_name : Option String)
    (cutoff : String) : List (StoredScreenResult × ScreenRun) :=
  (sqlJoin db).filter (fun p => windowPred strategy_name cutoff p.2)

/-- The GROUP BY symbol rows of get_top_symbols: one (symbol, COUNT(*))
pair per distinct symbol, in ascending symbol (group scan) order. -/
def symbolGroups (db : ScreenDatabase) (strategy_name : Option String)
    (cutoff : String) : List (String × Nat) :=
  let rows := topSymbolRows db strategy_name cutoff
  (((rows.map (fun p => p.1.symbol)).dedup).insertionSort symLEP).map
    (fun sym => (sym, rows.countP (fun p => p.1.symbol == sym)))

def get_top_symbols (db : ScreenDatabase) (strategy_name : Option String)
    (cutoff : String) (limit : Nat) : List (String × Nat) :=
  ((symbolGroups db strategy_name cutoff).insertionSort countDescLEP).take limit

/-- ScreenDatabase.delete_old_runs (database.py lines 569-607): collects the
ids of runs with executed_at < cutoff, returns 0 if there are none, else
deletes the screen_results rows with run_id among them, then those runs,
and returns how many run ids were deleted. -/
def delete_old_runs (db : ScreenDatabase) (cutoff : String) : ScreenDatabase × Nat :=
  let run_ids := (db.runs.filter (fun r => strLtB r.executed_at cutoff)).map (fun r => r.id)
  if run_ids.isEmpty then (db, 0)
  else
    ({ db with
        results := db.results.filter (fun s => !(run_ids.contains s.run_id)),
        runs := db.runs.filter (fun r => !(run_ids.contains r.id)) },
     run_ids.length)

/-- StrategyPerformance (strategy.py lines 56-98). -/
structure StrategyPerformance where
  total_runs : Nat
  successful_picks : Nat
  failed_picks : Nat
  avg_return : ℚ
  last_run : Option String
  last_result_count : Nat
  deriving Repr, DecidableEq

/-- Dataclass defaults of StrategyPerformance. -/
def initPerformance : StrategyPerformance :=
  { total_runs := 0, successful_picks := 0, failed_picks := 0,
    avg_return := 0, last_run := none, last_result_count := 0 }

/-- StrategyPerformance.record_result (strategy.py lines 80-92): increments
the matching counter, then updates the running average with
new_avg = (old_avg * (total_picks - 1) + return_pct) / total_picks. -/
def record_result (p : StrategyPerformance) (successful : Bool)
    (return_pct : ℚ) : StrategyPerformance :=
  let p1 := if successful then { p with successful_picks := p.successful_picks + 1 }
            else { p with failed_picks := p.failed_picks + 1 }
  let total_picks := p1.successful_picks + p1.failed_picks
  if 0 < total_picks then
    { p1 with avg_return :=
        (p1.avg_return * ((total_picks : ℚ) - 1) + return_pct) / (total_picks : ℚ) }
  else p1

/-- StrategyPerformance.success_rate (strategy.py lines 94-98). -/
def success_rate (p : StrategyPerformance) : ℚ :=
  let total := p.successful_picks + p.failed_picks
  if 0 < total then (p.successful_picks : ℚ) / (total : ℚ) * 100 else 0

/-- Folding a sequence of record_result calls over an accumulator. -/
def applyResults (p : StrategyPerformance) (calls : List (Bool × ℚ)) : StrategyPerformance :=
  calls.foldl (fun acc c => record_result acc c.1 c.2) p

/-- Well-formedness of a database state, maintained by the write paths:
row ids strictly increase along each table in stored order (AUTOINCREMENT)
and all ids, including the run_id foreign keys, are below the
corresponding next fresh id. -/
def DBWF (db : ScreenDatabase) : Prop :=
  db.runs.Pairwise (fun a b => a.id < b.id) ∧
  db.results.Pairwise (fun a b => a.id < b.id) ∧
  (∀ r ∈ db.runs, r.id < db.next_run_id) ∧
  (∀ s ∈ db.results, s.id < db.next_result_id) ∧
  (∀ s ∈ db.results, s.run_id < db.next_run_id)

instance (db : ScreenDatabase) : Decidable (DBWF db) := by
  unfold DBWF
  infer_instance

/-! ### Performance accumulator (claim C8) -/

/-- One record_result call multiplies out the running-average update:
the average times the pick count accumulates the recorded percentage. -/
theorem record_result_avg_mul (p : StrategyPerformance) (c : Bool × ℚ) :
    (record_result p c.1 c.2).avg_return
          * (((record_result p c.1 c.2).successful_picks
              + (record_result p c.1 c.2).failed_picks : ℕ) : ℚ)
        = p.avg_return * ((p.successful_picks + p.failed_picks : ℕ) : ℚ) + c.2 := by
  cases hc : c.1 with
  | true =>
    simp only [record_result, hc, if_true]
    rw [if_pos (by omega : 0 < p.successful_picks + 1 + p.failed_picks)]
    have h1 : p.successful_picks + 1 + p.failed_picks
        = p.successful_picks + p.failed_picks + 1 := by omega
    simp only [h1]
    push_cast
    have hne : (p.successful_picks : ℚ) + (p.failed_picks : ℚ) + 1 ≠ 0 := by positivity
    field_simp
  | false =>
    simp only [record_result, hc, if_false, Bool.false_eq_true]
    rw [if_pos (by omega : 0 < p.successful_picks + (p.failed_picks + 1))]
    have h1 : p.successful_picks + (p.failed_picks + 1)
        = p.successful_picks + p.failed_picks + 1 := by omega
    simp only [h1]
    push_cast
    have hne : (p.successful_picks : ℚ) + (p.failed_picks : ℚ) + 1 ≠ 0 := by positivity
    field_simp

/-- Counter bookkeeping of one record_result call. -/
theorem record_result_counts (p : StrategyPerformance) (c : Bool × ℚ) :
    (record_result p c.1 c.2).successful_picks
        = p.successful_picks + (if c.1 then 1 else 0) ∧
    (record_result p c.1 c.2).failed_picks
        = p.failed_picks + (if c.1 then 0 else 1) := by
  cases hc : c.1 <;> constructor <;> simp [record_result, hc]

/-- Invariant maintained by record_result folds: the two counters count the
successful and failed calls, and the running average times the number of
picks accumulates the sum of the recorded percentages. -/
theorem applyResults_invariant (calls : List (Bool × ℚ)) (p : StrategyPerformance) :
    (applyResults p calls).successful_picks
        = p.successful_picks + calls.countP (fun c => c.1) ∧
    (applyResults p calls).failed_picks
        = p.failed_picks + calls.countP (fun c => !c.1) ∧
    (applyResults p calls).avg_return
          * (((applyResults p calls).successful_picks
              + (applyResults p calls).failed_picks : ℕ) : ℚ)
        = p.avg_return * ((p.successful_picks + p.failed_picks : ℕ) : ℚ)
          + (calls.map (fun c => c.2)).sum := by
  induction calls generalizing p with
  | nil => simp [applyResults]
  | cons c cs ih =>
    have hstep : applyResults p (c :: cs) = applyResults (record_result p c.1 c.2) cs := by
      simp [applyResults, List.foldl_cons]
    obtain ⟨ihs, ihf, iha⟩ := ih (record_result p c.1 c.2)
    obtain ⟨hrs, hrf⟩ := record_result_counts p c
    refine ⟨?_, ?_, ?_⟩
    · rw [hstep, ihs, hrs]
      cases hc : c.1 <;> simp [List.countP_cons, hc] <;> omega
    · rw [hstep, ihf, hrf]
      cases hc : c.1 <;> simp [List.countP_cons, hc] <;> omega
    · rw [hstep, iha, record_result_avg_mul]
      simp only [List.map_cons, List.sum_cons]
      ring

/-- Calls split into successful and failed ones. -/
theorem countP_calls_split (l : List (Bool × ℚ)) :
    l.length = l.countP (fun c => c.1) + l.countP (fun c => !c.1) := by
  induction l with
  | nil => simp
  | cons c cs ih => cases hc : c.1 <;> simp [List.countP_cons, hc, ih] <;> omega

/-- C8: after any sequence of record_result calls on a performance
accumulator starting from defaults, successful_picks and failed_picks
count the successful and failed calls, avg_return is the arithmetic mean
of all recorded return_pct values (when at least one was recorded),
success_rate is successful / (successful + failed) * 100, or 0 when no
picks are recorded; in particular record_result(true, 10.0),
record_result(true, 5.0), record_result(false, -2.0) yields
avg_return = 13/3 ≈ 4.333 and success_rate = 200/3 ≈ 66.67. -/
theorem record_result_mean_and_success_rate (calls : List (Bool × ℚ)) :
    (applyResults initPerformance calls).successful_picks
        = calls.countP (fun c => c.1) ∧
    (applyResults initPerformance calls).failed_picks
        = calls.countP (fun c => !c.1) ∧
    (calls ≠ [] →
      (applyResults initPerformance calls).avg_return
        = (calls.map (fun c => c.2)).sum / (calls.length : ℚ)) ∧
    (calls = [] → success_rate (applyResults initPerformance calls) = 0) ∧
    (calls ≠ [] →
      success_rate (applyResults initPerformance calls)
        = ((applyResults initPerformance calls).successful_picks : ℚ)
          / (((applyResults initPerformance calls).successful_picks
              + (applyResults initPerformance calls).failed_picks : ℕ) : ℚ) * 100) ∧
    (applyResults initPerformance [(true, 10), (true, 5), (false, -2)]).avg_return
        = 13 / 3 ∧
    success_rate (applyResults initPerformance [(true, 10), (true, 5), (false, -2)])
        = 200 / 3 := by
  obtain ⟨hs, hf, ha⟩ := applyResults_invariant calls initPerformance
  simp only [show initPerformance.successful_picks = 0 from rfl,
    show initPerformance.failed_picks = 0 from rfl,
    show initPerformance.avg_return = 0 from rfl,
    Nat.zero_add, Nat.add_zero, Nat.cast_zero, zero_mul, zero_add] at hs hf ha
  have htot : (applyResults initPerformance calls).successful_picks
      + (applyResults initPerformance calls).failed_picks = calls.length := by
    rw [hs, hf, countP_calls_split calls]
  refine ⟨hs, hf, ?_, ?_, ?_,
    by norm_num [applyResults, record_result, initPerformance],
    by norm_num [applyResults, record_result, initPerformance, success_rate]⟩
  · intro hne
    have hlen : 0 < calls.length := List.length_pos.mpr hne
    have hcast : ((calls.length : ℕ) : ℚ) ≠ 0 := by
      exact_mod_cast Nat.pos_iff_ne_zero.mp hlen
    rw [htot] at ha
    field_simp
    linarith [ha]
  · intro hnil
    subst hnil
    simp [applyResults, initPerformance, success_rate]
  · intro hne
    have hlen : 0 < calls.length := List.length_pos.mpr hne
    unfold success_rate
    rw [if_pos (by omega : 0 < (applyResults initPerformance calls).successful_picks
      + (applyResults initPerformance calls).failed_picks)]

/-- Witness for C8 at the spec's example call sequence. -/
theorem record_result_mean_and_success_rate_witness :
    ([((true : Bool), (10 : ℚ)), (true, 5), (false, -2)]
        ≠ ([] : List (Bool × ℚ))) ∧
    (applyResults initPerformance [(true, 10), (true, 5), (false, -2)]).avg_return
      = (([((true : Bool), (10 : ℚ)), (true, 5), (false, -2)].map (fun c => c.2)).sum
          / (([((true : Bool), (10 : ℚ)), (true, 5), (false, -2)].length : ℕ) : ℚ)) := by
  refine ⟨by decide, ?_⟩
  exact (record_result_mean_and_success_rate
    [(true, 10), (true, 5), (false, -2)]).2.2.1 (by decide)

/-! ### Backfill of forward prices (claims C2, C3, C4) -/

/-- The target row as read back after a backfill call: none when the call
raised or the row does not exist. -/
def rowAfterUpdate (db : ScreenDatabase) (result_id : Nat)
    (price_1d price_1w price_1m : Option ℚ) : Option StoredScreenResult :=
  (update_result_prices db result_id price_1d price_1w price_1m).toOption.bind
    (fun d => d.results.find? (fun s => s.id == result_id))

/-- Backfill with a stored non-null, non-zero price_at_screen rewrites
exactly the rows with the target id through updatedRow. -/
theorem update_result_prices_eq (db : ScreenDatabase) (result_id : Nat)
    (p1 pw pm : Option ℚ) (row : StoredScreenResult) (pas : ℚ)
    (hfind : db.results.find? (fun s => s.id == result_id) = some row)
    (hpas : row.price_at_screen = some pas) (h0 : pas ≠ 0) :
    update_result_prices db result_id p1 pw pm
      = Except.ok { db with results := db.results.map (fun s =>
          if s.id == result_id then updatedRow s pas p1 pw pm else s) } := by
  unfold update_result_prices
  rw [hfind]
  dsimp only
  rw [hpas]
  dsimp only
  rw [if_neg]
  rintro ⟨h, -⟩
  exact h0 h

/-- A find? by id over an id-preserving targeted map commutes with the map. -/
theorem find?_targeted_map (l : List StoredScreenResult) (result_id : Nat)
    (g : StoredScreenResult → StoredScreenResult) (hg : ∀ s, (g s).id = s.id) :
    (l.map (fun s => if s.id == result_id then g s else s)).find?
        (fun s => s.id == result_id)
      = (l.find? (fun s => s.id == result_id)).map
        (fun s => if s.id == result_id then g s else s) := by
  induction l with
  | nil => rfl
  | cons a t ih =>
    rw [List.map_cons]
    by_cases ha : (a.id == result_id) = true
    · have hfa : (((if a.id == result_id then g a else a)).id == result_id) = true := by
        rw [if_pos ha, hg]
        exact ha
      rw [List.find?_cons_of_pos (p := fun (s : StoredScreenResult) => s.id == result_id) _ hfa,
        List.find?_cons_of_pos (p := fun (s : StoredScreenResult) => s.id == result_id) _ ha, Option.map_some']
    · have hfa : ¬ (((if a.id == result_id then g a else a)).id == result_id) = true := by
        rw [if_neg ha]
        exact ha
      rw [List.find?_cons_of_neg (p := fun (s : StoredScreenResult) => s.id == result_id) _ hfa,
        List.find?_cons_of_neg (p := fun (s : StoredScreenResult) => s.id == result_id) _ ha, ih]

/-- Reading the target row back after a successful backfill yields the
updatedRow transformation of the stored row. -/
theorem rowAfterUpdate_eq (db : ScreenDatabase) (result_id : Nat)
    (p1 pw pm : Option ℚ) (row : StoredScreenResult) (pas : ℚ)
    (hfind : db.results.find? (fun s => s.id == result_id) = some row)
    (hpas : row.price_at_screen = some pas) (h0 : pas ≠ 0) :
    rowAfterUpdate db result_id p1 pw pm = some (updatedRow row pas p1 pw pm) := by
  unfold rowAfterUpdate
  rw [update_result_prices_eq db result_id p1 pw pm row pas hfind hpas h0]
  simp only [Except.toOption, Option.some_bind]
  rw [find?_targeted_map db.results result_id (fun s => updatedRow s pas p1 pw pm)
    (fun s => rfl)]
  rw [hfind, Option.map_some']
  have hrow : (row.id == result_id) = true := by
    simpa using List.find?_some hfind
  rw [if_pos hrow]

/-- Backfill is the identity when the stored price_at_screen is NULL:
the guard `if not row or row[0] is None` returns before any write. -/
theorem update_result_prices_noop (db : ScreenDatabase) (result_id : Nat)
    (p1 pw pm : Option ℚ) (row : StoredScreenResult)
    (hfind : db.results.find? (fun s => s.id == result_id) = some row)
    (hpas : row.price_at_screen = none) :
    update_result_prices db result_id p1 pw pm = Except.ok db := by
  unfold update_result_prices
  rw [hfind]
  dsimp only
  rw [hpas]

/-- A stored result that has already been backfilled for the 1d horizon:
price_at_screen 100, price_1d_later 105, return_1d 5. -/
def backfilledRow : StoredScreenResult :=
  { id := 1, run_id := 1, symbol := "AAPL", exchange := some "NASDAQ", contract_id := 1,
    rank := 1, distance := none, benchmark := none, price_at_screen := some 100,
    volume_at_screen := none, price_1d_later := some 105, price_1w_later := none,
    price_1m_later := none, return_1d := some 5, return_1w := none, return_1m := none }

/-- A database holding just backfilledRow. -/
def backfilledDb : ScreenDatabase :=
  { runs := [], results := [backfilledRow], next_run_id := 2, next_result_id := 2 }

/-- C2 counterexample: the stored result has price_at_screen 100 and a
previously backfilled price_1d_later = 105, return_1d = 5; a
backfill_prices call supplying only the 1w horizon (price_1d left null)
sets price_1d_later and return_1d to NULL instead of keeping them. -/
theorem backfill_clears_unsupplied_horizon_cex :
    backfilledRow.return_1d = some 5 ∧
    backfilledRow.price_1d_later = some 105 ∧
    (rowAfterUpdate backfilledDb 1 none (some 110) none).map (fun s => s.return_1d)
      = some none ∧
    (rowAfterUpdate backfilledDb 1 none (some 110) none).map (fun s => s.price_1d_later)
      = some none := by
  refine ⟨rfl, rfl, by decide, by decide⟩

/-- C2 (amended): for every stored result with a non-null (and non-zero)
price_at_screen, a backfill_prices call overwrites all six price/return
columns: every horizon whose price argument is null (or 0.0, which Python
treats as falsy) has its price and return fields set to NULL, discarding
any previously backfilled values, while supplied horizons are recomputed. -/
theorem backfill_sets_unsupplied_horizons_to_null (db : ScreenDatabase)
    (result_id : Nat) (p1 pw pm : Option ℚ) (row : StoredScreenResult) (pas : ℚ)
    (hfind : db.results.find? (fun s => s.id == result_id) = some row)
    (hpas : row.price_at_screen = some pas) (h0 : pas ≠ 0) :
    (p1 = none →
      (rowAfterUpdate db result_id p1 pw pm).map (fun s => s.return_1d) = some none ∧
      (rowAfterUpdate db result_id p1 pw pm).map (fun s => s.price_1d_later) = some none) ∧
    (pw = none →
      (rowAfterUpdate db result_id p1 pw pm).map (fun s => s.return_1w) = some none ∧
      (rowAfterUpdate db result_id p1 pw pm).map (fun s => s.price_1w_later) = some none) ∧
    (pm = none →
      (rowAfterUpdate db result_id p1 pw pm).map (fun s => s.return_1m) = some none ∧
      (rowAfterUpdate db result_id p1 pw pm).map (fun s => s.price_1m_later) = some none) := by
  rw [rowAfterUpdate_eq db result_id p1 pw pm row pas hfind hpas h0]
  refine ⟨?_, ?_, ?_⟩ <;> rintro rfl <;>
    simp [updatedRow, horizonReturn, optTruthy]

/-- Witness for the amended C2 on the concrete backfilled database. -/
theorem backfill_sets_unsupplied_horizons_to_null_witness :
    (backfilledDb.results.find? (fun s => s.id == 1) = some backfilledRow) ∧
    (backfilledRow.price_at_screen = some 100) ∧
    ((100 : ℚ) ≠ 0) ∧
    ((none : Option ℚ) = none →
      (rowAfterUpdate backfilledDb 1 none (some 110) none).map (fun s => s.return_1d)
          = some none ∧
      (rowAfterUpdate backfilledDb 1 none (some 110) none).map (fun s => s.price_1d_later)
          = some none) := by
  refine ⟨by decide, rfl, by decide, ?_⟩
  exact (backfill_sets_unsupplied_horizons_to_null backfilledDb 1 none (some 110) none
    backfilledRow 100 (by decide) rfl (by decide)).1

/-- A stored result with price_at_screen 100 and no backfill data yet. -/
def screenRow100 : StoredScreenResult :=
  { id := 1, run_id := 1, symbol := "AAPL", exchange := some "NASDAQ", contract_id := 1,
    rank := 1, distance := none, benchmark := none, price_at_screen := some 100,
    volume_at_screen := none, price_1d_later := none, price_1w_later := none,
    price_1m_later := none, return_1d := none, return_1w := none, return_1m := none }

/-- A database holding just screenRow100. -/
def screenDb100 : ScreenDatabase :=
  { runs := [], results := [screenRow100], next_run_id := 2, next_result_id := 2 }

/-- C3 counterexample: price 0.0 is non-null but falsy in Python, so
supplying price_1d = 0.0 against price_at_screen = 100 stores NULL for
return_1d rather than the formula value (0 - 100) / 100 * 100 = -100. -/
theorem backfill_zero_price_cex :
    (rowAfterUpdate screenDb100 1 (some 0) none none).map (fun s => s.return_1d)
        = some none ∧
    ((0 - 100 : ℚ) / 100 * 100 = -100) ∧
    (some none ≠ some (some ((0 - 100 : ℚ) / 100 * 100))) := by
  refine ⟨by decide, by norm_num, by simp⟩

/-- C3 (amended): for every stored result with non-null, non-zero
price_at_screen and every horizon whose price is supplied non-null and
non-zero, the stored return for that horizon afterwards equals
(price - price_at_screen) / price_at_screen * 100; in particular
price_at_screen = 100 with prices 105, 110, 95 yields returns 5, 10, -5. -/
theorem backfill_return_formula (db : ScreenDatabase)
    (result_id : Nat) (p1 pw pm : Option ℚ) (row : StoredScreenResult) (pas : ℚ)
    (hfind : db.results.find? (fun s => s.id == result_id) = some row)
    (hpas : row.price_at_screen = some pas) (h0 : pas ≠ 0) :
    (∀ v : ℚ, p1 = some v → v ≠ 0 →
      (rowAfterUpdate db result_id p1 pw pm).map (fun s => s.return_1d)
        = some (some ((v - pas) / pas * 100))) ∧
    (∀ v : ℚ, pw = some v → v ≠ 0 →
      (rowAfterUpdate db result_id p1 pw pm).map (fun s => s.return_1w)
        = some (some ((v - pas) / pas * 100))) ∧
    (∀ v : ℚ, pm = some v → v ≠ 0 →
      (rowAfterUpdate db result_id p1 pw pm).map (fun s => s.return_1m)
        = some (some ((v - pas) / pas * 100))) ∧
    (rowAfterUpdate screenDb100 1 (some 105) (some 110) (some 95)).map
        (fun s => (s.return_1d, s.return_1w, s.return_1m))
      = some (some 5, some 10, some (-5)) := by
  rw [rowAfterUpdate_eq db result_id p1 pw pm row pas hfind hpas h0]
  refine ⟨?_, ?_, ?_, ?_⟩
  · rintro v rfl hv
    simp [updatedRow, horizonReturn, optTruthy, hv]
  · rintro v rfl hv
    simp [updatedRow, horizonReturn, optTruthy, hv]
  · rintro v rfl hv
    simp [updatedRow, horizonReturn, optTruthy, hv]
  · rw [rowAfterUpdate_eq screenDb100 1 (some 105) (some 110) (some 95) screenRow100 100
      (by decide) rfl (by norm_num)]
    simp only [updatedRow, horizonReturn, optTruthy, Option.map_some']
    norm_num

/-- Witness for the amended C3 on the concrete database. -/
theorem backfill_return_formula_witness :
    ((some (105 : ℚ)) = some 105) ∧ ((105 : ℚ) ≠ 0) ∧
    (rowAfterUpdate screenDb100 1 (some 105) (some 110) (some 95)).map
        (fun s => s.return_1d)
      = some (some (((105 : ℚ) - 100) / 100 * 100)) := by
  refine ⟨rfl, by norm_num, ?_⟩
  exact (backfill_return_formula screenDb100 1 (some 105) (some 110) (some 95)
    screenRow100 100 (by decide) rfl (by norm_num)).1 105 rfl (by norm_num)

/-- C4: for every stored result whose price_at_screen is NULL,
backfill_prices is a silent no-op: no error is raised, the database is
unchanged, and in particular every price and return field of that result
keeps its (null) value, regardless of which horizon prices are supplied. -/
theorem backfill_noop_on_null_price_at_screen (db : ScreenDatabase)
    (result_id : Nat) (p1 pw pm : Option ℚ) (row : StoredScreenResult)
    (hfind : db.results.find? (fun s => s.id == result_id) = some row)
    (hpas : row.price_at_screen = none) :
    update_result_prices db result_id p1 pw pm = Except.ok db ∧
    rowAfterUpdate db result_id p1 pw pm = some row := by
  have h := update_result_prices_noop db result_id p1 pw pm row hfind hpas
  refine ⟨h, ?_⟩
  unfold rowAfterUpdate
  rw [h]
  simp only [Except.toOption, Option.some_bind]
  exact hfind

/-- An in-memory screener result carrying no market data. -/
def freshRes : ScreenResult :=
  { symbol := "AAPL", rank := 1, contract_id := 7, price := none,
    volume := none, impl_volatility := none, exchange := some "NASDAQ",
    currency := none, distance := none, benchmark := none, projection := none,
    legs_str := none }

/-- A database holding one freshly written result row. -/
def freshDb : ScreenDatabase :=
  { runs := [], results := [mkStoredRow 1 1 freshRes], next_run_id := 2, next_result_id := 2 }

/-- Witness for C4: a freshly written row (all market data NULL). -/
theorem backfill_noop_on_null_price_at_screen_witness :
    ((mkStoredRow 1 1 freshRes).price_at_screen = none) ∧
    update_result_prices freshDb 1 (some 105) (some 110) (some 95) = Except.ok freshDb := by
  refine ⟨rfl, ?_⟩
  exact (backfill_noop_on_null_price_at_screen freshDb 1 (some 105) (some 110) (some 95)
    (mkStoredRow 1 1 freshRes) (by decide) rfl).1

/-! ### Retention cleanup (claim C9) -/

/-- Two members of a list with strictly increasing keys that share a key
are the same element. -/
theorem eq_of_mem_pairwise_lt {α : Type} (key : α → Nat) {l : List α}
    (hp : l.Pairwise (fun a b => key a < key b)) {x y : α}
    (hx : x ∈ l) (hy : y ∈ l) (hk : key x = key y) : x = y := by
  induction l with
  | nil => cases hx
  | cons a t ih =>
    rcases List.pairwise_cons.mp hp with ⟨ha, ht⟩
    rcases List.mem_cons.mp hx with hxa | hxt
    · rcases List.mem_cons.mp hy with hya | hyt
      · rw [hxa, hya]
      · exact absurd hk (by subst hxa; have := ha y hyt; omega)
    · rcases List.mem_cons.mp hy with hya | hyt
      · exact absurd hk (by subst hya; have := ha x hxt; omega)
      · exact ih ht hxt hyt

/-- Membership of a run id in the collected old-run id list is equivalent
to the run itself being old, given strictly increasing run ids. -/
theorem mem_old_ids_iff (db : ScreenDatabase) (cutoff : String)
    (hp : db.runs.Pairwise (fun a b => a.id < b.id))
    (r : ScreenRun) (hr : r ∈ db.runs) :
    ((db.runs.filter (fun x => strLtB x.executed_at cutoff)).map
        (fun x => x.id)).contains r.id = strLtB r.executed_at cutoff := by
  have hiff : (r.id ∈ (db.runs.filter (fun x => strLtB x.executed_at cutoff)).map
      (fun x => x.id)) ↔ r.executed_at < cutoff := by
    constructor
    · intro hmem
      rcases List.mem_map.mp hmem with ⟨r2, hr2, hid⟩
      rcases List.mem_filter.mp hr2 with ⟨hr2m, hr2old⟩
      have heq : r = r2 := eq_of_mem_pairwise_lt (fun x => x.id) hp hr hr2m hid.symm
      rw [heq]
      exact (strLtB_iff _ _).mp hr2old
    · intro hold
      exact List.mem_map_of_mem _ (List.mem_filter.mpr ⟨hr, (strLtB_iff _ _).mpr hold⟩)
  have hc : ((db.runs.filter (fun x => strLtB x.executed_at cutoff)).map
      (fun x => x.id)).contains r.id
      = decide (r.id ∈ (db.runs.filter (fun x => strLtB x.executed_at cutoff)).map
        (fun x => x.id)) := by
    simp [List.elem_eq_mem]
  cases hb : strLtB r.executed_at cutoff
  · rw [hc]
    apply decide_eq_false
    intro hmem
    exact absurd (hiff.mp hmem) ((strLtB_false_iff _ _).mp hb)
  · rw [hc]
    apply decide_eq_true
    exact hiff.mpr ((strLtB_iff _ _).mp hb)

/-- C9: delete_old_runs removes exactly the runs whose executed_at is older
than the cutoff, returns the number of runs deleted (not results), reading
the results of any deleted run afterwards gives the empty list, and the
result rows of surviving runs are kept. -/
theorem delete_old_runs_spec (db : ScreenDatabase) (cutoff : String) (hwf : DBWF db) :
    (delete_old_runs db cutoff).1.runs
        = db.runs.filter (fun r => !(strLtB r.executed_at cutoff)) ∧
    (delete_old_runs db cutoff).2
        = (db.runs.filter (fun r => strLtB r.executed_at cutoff)).length ∧
    (∀ r ∈ db.runs, r.executed_at < cutoff →
      get_screen_results (delete_old_runs db cutoff).1 r.id = []) ∧
    (∀ s ∈ db.results,
      (∀ r ∈ db.runs, s.run_id = r.id → ¬ (r.executed_at < cutoff)) →
      s ∈ (delete_old_runs db cutoff).1.results) := by
  obtain ⟨hpruns, hpres, hrlt, hslt, hsrunlt⟩ := hwf
  unfold delete_old_runs
  by_cases hemp : ((db.runs.filter (fun r => strLtB r.executed_at cutoff)).map
      (fun r => r.id)).isEmpty
  · have hnil : db.runs.filter (fun r => strLtB r.executed_at cutoff) = [] :=
      List.map_eq_nil_iff.mp (List.isEmpty_iff.mp hemp)
    rw [if_pos hemp]
    refine ⟨?_, ?_, ?_, ?_⟩
    · rw [Eq.comm, List.filter_eq_self]
      intro r hr
      have hnot : ¬ (r.executed_at < cutoff) := by
        intro hold
        have : r ∈ db.runs.filter (fun x => strLtB x.executed_at cutoff) :=
          List.mem_filter.mpr ⟨hr, (strLtB_iff _ _).mpr hold⟩
        rw [hnil] at this
        cases this
      rw [Bool.not_eq_true']
      exact (strLtB_false_iff _ _).mpr hnot
    · rw [hnil]
      rfl
    · intro r hr hold
      have : r ∈ db.runs.filter (fun x => strLtB x.executed_at cutoff) :=
        List.mem_filter.mpr ⟨hr, (strLtB_iff _ _).mpr hold⟩
      rw [hnil] at this
      cases this
    · intro s hs _
      exact hs
  · rw [if_neg hemp]
    refine ⟨?_, ?_, ?_, ?_⟩
    · apply List.filter_congr
      intro r hr
      rw [mem_old_ids_iff db cutoff hpruns r hr]
    · rw [List.length_map]
    · intro r hr hold
      unfold get_screen_results
      have hfilt : ((db.results.filter (fun s =>
          !(((db.runs.filter (fun x => strLtB x.executed_at cutoff)).map
            (fun x => x.id)).contains s.run_id))).filter (fun s => s.run_id == r.id))
          = [] := by
        rw [List.filter_eq_nil_iff]
        intro s hs hbeq
        rcases List.mem_filter.mp hs with ⟨-, hsur⟩
        have hrun : s.run_id = r.id := by
          simpa using hbeq
        have hmem : r.id ∈ (db.runs.filter (fun x => strLtB x.executed_at cutoff)).map
            (fun x => x.id) :=
          List.mem_map_of_mem _ (List.mem_filter.mpr ⟨hr, (strLtB_iff _ _).mpr hold⟩)
        rw [hrun] at hsur
        simp only [Bool.not_eq_true', List.elem_eq_mem] at hsur
        exact absurd hmem (of_decide_eq_false hsur)
      rw [hfilt]
      simp
    · intro s hs hsown
      apply List.mem_filter.mpr
      refine ⟨hs, ?_⟩
      simp only [Bool.not_eq_eq_eq_not, Bool.not_true, List.elem_eq_mem]
      apply decide_eq_false
      intro hmem
      rcases List.mem_map.mp hmem with ⟨r2, hr2, hid⟩
      rcases List.mem_filter.mp hr2 with ⟨hr2m, hr2old⟩
      exact hsown r2 hr2m hid.symm ((strLtB_iff _ _).mp hr2old)

/-- A run executed long before the retention cutoff. -/
def oldRun : ScreenRun :=
  { id := 1, strategy_name := "test_strategy", scan_code := "TOP",
    executed_at := "2025-06-01", result_count := 1, filters := some "{}",
    bias := "long", style := "momentum" }

/-- A recent run inside the retention window. -/
def newRun : ScreenRun :=
  { id := 2, strategy_name := "test_strategy", scan_code := "TOP",
    executed_at := "2026-10-01", result_count := 1, filters := some "{}",
    bias := "long", style := "momentum" }

/-- A database with one old and one recent run, one result row each. -/
def mixDb : ScreenDatabase :=
  { runs := [oldRun, newRun],
    results := [mkStoredRow 1 1 freshRes, mkStoredRow 2 2 freshRes],
    next_run_id := 3, next_result_id := 3 }

/-- Witness for C9: deleting with cutoff 2026-01-01 removes the old run and
reading its results afterwards gives the empty list. -/
theorem delete_old_runs_spec_witness :
    DBWF mixDb ∧
    get_screen_results (delete_old_runs mixDb "2026-01-01").1 1 = [] := by
  refine ⟨by decide, ?_⟩
  exact (delete_old_runs_spec mixDb "2026-01-01" (by decide)).2.2.1 oldRun
    (by decide) ((strLtB_iff _ _).mp (by decide))

/-! ### Write path and read-back (claims C1 and C10) -/

/-- The screen-data columns that save_screen_run persists from an
in-memory ScreenResult. -/
def storedProj (s : StoredScreenResult) :
    String × Option String × Int × Int × Option String × Option String :=
  (s.symbol, s.exchange, s.contract_id, s.rank, s.distance, s.benchmark)

/-- The same columns read off an in-memory ScreenResult. -/
def resultProj (r : ScreenResult) :
    String × Option String × Int × Int × Option String × Option String :=
  (r.symbol, r.exchange, r.contract_id, r.rank, r.distance, r.benchmark)

/-- Every row inserted by the save loop carries the fresh run id, an id in
the consecutive fresh range, and NULL market data. -/
theorem insertResultRows_facts (rs : List ScreenResult) (next_id run_id : Nat) :
    ∀ s ∈ insertResultRows next_id run_id rs,
      s.run_id = run_id ∧ next_id ≤ s.id ∧ s.id < next_id + rs.length ∧
      s.price_at_screen = none ∧ s.volume_at_screen = none := by
  induction rs generalizing next_id with
  | nil => intro s hs; cases hs
  | cons r rest ih =>
    intro s hs
    rcases List.mem_cons.mp hs with hsa | hst
    · subst hsa
      refine ⟨rfl, Nat.le_refl _, ?_, rfl, rfl⟩
      have hid : (mkStoredRow next_id run_id r).id = next_id := rfl
      simp only [List.length_cons]
      omega
    · obtain ⟨h1, h2, h3, h4, h5⟩ := ih (next_id + 1) s hst
      refine ⟨h1, by omega, ?_, h4, h5⟩
      simp only [List.length_cons]
      omega

/-- Ids strictly increase along the rows inserted by the save loop. -/
theorem insertResultRows_pairwise (rs : List ScreenResult) (next_id run_id : Nat) :
    (insertResultRows next_id run_id rs).Pairwise (fun a b => a.id < b.id) := by
  induction rs generalizing next_id with
  | nil => exact List.Pairwise.nil
  | cons r rest ih =>
    apply List.pairwise_cons.mpr
    refine ⟨?_, ih (next_id + 1)⟩
    intro s hs
    obtain ⟨-, h2, -, -, -⟩ := insertResultRows_facts rest (next_id + 1) run_id s hs
    have hid : (mkStoredRow next_id run_id r).id = next_id := rfl
    omega

/-- The projection of the inserted rows is exactly the projection of the
in-memory results, in order. -/
theorem insertResultRows_map_proj (rs : List ScreenResult) (next_id run_id : Nat) :
    (insertResultRows next_id run_id rs).map storedProj = rs.map resultProj := by
  induction rs generalizing next_id with
  | nil => rfl
  | cons r rest ih =>
    simp only [insertResultRows, List.map_cons, ih]
    rfl

/-- A committed save preserves well-formedness of the database state. -/
theorem saveCommitted_wf (db : ScreenDatabase) (strategy : ScreeningStrategy)
    (rs : List ScreenResult) (executed_at : String) (hwf : DBWF db) :
    DBWF (saveCommitted db strategy rs executed_at).1 := by
  obtain ⟨hpruns, hpres, hrlt, hslt, hsrunlt⟩ := hwf
  refine ⟨?_, ?_, ?_, ?_, ?_⟩
  · apply List.pairwise_append.mpr
    refine ⟨hpruns, List.pairwise_singleton _ _, ?_⟩
    intro a ha b hb
    rw [List.mem_singleton.mp hb]
    exact hrlt a ha
  · apply List.pairwise_append.mpr
    refine ⟨hpres, insertResultRows_pairwise rs db.next_result_id db.next_run_id, ?_⟩
    intro a ha b hb
    obtain ⟨-, h2, -, -, -⟩ :=
      insertResultRows_facts rs db.next_result_id db.next_run_id b hb
    have := hslt a ha
    omega
  · intro r hr
    rcases List.mem_append.mp hr with hro | hrn
    · have := hrlt r hro
      simp only [saveCommitted]
      omega
    · rw [List.mem_singleton.mp hrn]
      simp [saveCommitted]
  · intro s hs
    rcases List.mem_append.mp hs with hso | hsn
    · have := hslt s hso
      simp only [saveCommitted]
      omega
    · obtain ⟨-, -, h3, -, -⟩ :=
        insertResultRows_facts rs db.next_result_id db.next_run_id s hsn
      simpa [saveCommitted] using h3
  · intro s hs
    rcases List.mem_append.mp hs with hso | hsn
    · have := hsrunlt s hso
      simp only [saveCommitted]
      omega
    · obtain ⟨h1, -, -, -, -⟩ :=
        insertResultRows_facts rs db.next_result_id db.next_run_id s hsn
      simp [saveCommitted, h1]

/-- Filtering the results table of the updated database by the fresh run
id yields exactly the newly inserted rows. -/
theorem saveCommitted_filter_new (db : ScreenDatabase) (strategy : ScreeningStrategy)
    (rs : List ScreenResult) (executed_at : String) (hwf : DBWF db) :
    (saveCommitted db strategy rs executed_at).1.results.filter
        (fun s => s.run_id == (saveCommitted db strategy rs executed_at).2)
      = insertResultRows db.next_result_id db.next_run_id rs := by
  obtain ⟨-, -, -, -, hsrunlt⟩ := hwf
  show (db.results ++ insertResultRows db.next_result_id db.next_run_id rs).filter
      (fun s => s.run_id == db.next_run_id) = _
  rw [List.filter_append]
  have hold : db.results.filter (fun s => s.run_id == db.next_run_id) = [] := by
    rw [List.filter_eq_nil_iff]
    intro s hs hbeq
    have := hsrunlt s hs
    have : s.run_id = db.next_run_id := by simpa using hbeq
    omega
  have hnew : (insertResultRows db.next_result_id db.next_run_id rs).filter
      (fun s => s.run_id == db.next_run_id)
      = insertResultRows db.next_result_id db.next_run_id rs := by
    rw [List.filter_eq_self]
    intro s hs
    obtain ⟨h1, -, -, -, -⟩ :=
      insertResultRows_facts rs db.next_result_id db.next_run_id s hs
    simp [h1]
  rw [hold, hnew, List.nil_append]

/-- rankLe is transitive. -/
theorem rankLe_trans : ∀ a b c : StoredScreenResult,
    rankLe a b → rankLe b c → rankLe a c := by
  intro a b c hab hbc
  unfold rankLe at hab hbc ⊢
  simp only [decide_eq_true_eq] at hab hbc ⊢
  omega

/-- rankLe is total. -/
theorem rankLe_total : ∀ a b : StoredScreenResult, rankLe a b || rankLe b a := by
  intro a b
  unfold rankLe
  simp only [Bool.or_eq_true, decide_eq_true_eq]
  omega

instance : IsTrans StoredScreenResult rankLEP :=
  ⟨fun a b c hab hbc => rankLe_trans a b c hab hbc⟩

instance : IsTotal StoredScreenResult rankLEP :=
  ⟨fun a b => by
    have := rankLe_total a b
    rcases Bool.or_eq_true_iff.mp this with h | h
    · exact Or.inl h
    · exact Or.inr h⟩

/-- A save whose results all carry an exchange passes the NOT NULL
constraint and commits. -/
theorem save_screen_run_ok (db : ScreenDatabase) (strategy : ScreeningStrategy)
    (rs : List ScreenResult) (executed_at : String)
    (hex : ∀ r ∈ rs, r.exchange.isSome) :
    save_screen_run db strategy rs executed_at
      = Except.ok (saveCommitted db strategy rs executed_at) := by
  unfold save_screen_run
  rw [if_neg]
  intro hc
  rcases List.any_eq_true.mp hc with ⟨r, hr, hn⟩
  have hs := hex r hr
  rw [Option.isNone_iff_eq_none.mp hn] at hs
  cases hs

/-- A save containing a result without an exchange violates the NOT NULL
constraint: IntegrityError, transaction rolled back, nothing written. -/
theorem save_screen_run_integrity_error (db : ScreenDatabase)
    (strategy : ScreeningStrategy) (rs : List ScreenResult) (executed_at : String)
    (r : ScreenResult) (hr : r ∈ rs) (hn : r.exchange = none) :
    save_screen_run db strategy rs executed_at = Except.error "IntegrityError" := by
  unfold save_screen_run
  rw [if_pos]
  exact List.any_eq_true.mpr ⟨r, hr, by rw [hn]; rfl⟩

/-- C1: for every strategy and ordered result list saved through
save_screen_run, reading the run back by the returned id finds it with
result_count equal to the length of the list, and reading its results
returns exactly the saved rows (their persisted columns) as a permutation
of the input sorted by rank ascending. -/
theorem save_then_read_roundtrip (db : ScreenDatabase) (strategy : ScreeningStrategy)
    (rs : List ScreenResult) (executed_at : String) (hwf : DBWF db)
    (hex : ∀ r ∈ rs, r.exchange.isSome) :
    save_screen_run db strategy rs executed_at
      = Except.ok (saveCommitted db strategy rs executed_at) ∧
    ((get_screen_run (saveCommitted db strategy rs executed_at).1
        (saveCommitted db strategy rs executed_at).2).map
      (fun run => run.result_count)) = some rs.length ∧
    ((get_screen_results (saveCommitted db strategy rs executed_at).1
        (saveCommitted db strategy rs executed_at).2).map storedProj).Perm
      (rs.map resultProj) ∧
    (get_screen_results (saveCommitted db strategy rs executed_at).1
        (saveCommitted db strategy rs executed_at).2).Pairwise
      (fun a b => a.rank ≤ b.rank) := by
  have hrlt := hwf.2.2.1
  refine ⟨save_screen_run_ok db strategy rs executed_at hex, ?_, ?_, ?_⟩
  · unfold get_screen_run
    show ((db.runs ++ [_]).find? (fun (r : ScreenRun) => r.id == db.next_run_id)).map _ = _
    rw [List.find?_append]
    have hnone : db.runs.find? (fun r => r.id == db.next_run_id) = none := by
      rw [List.find?_eq_none]
      intro r hr hbeq
      have := hrlt r hr
      have : r.id = db.next_run_id := by simpa using hbeq
      omega
    rw [hnone, Option.none_or]
    rw [List.find?_cons_of_pos _ (by simp)]
    rfl
  · unfold get_screen_results
    rw [saveCommitted_filter_new db strategy rs executed_at hwf]
    have hperm : (((insertResultRows db.next_result_id db.next_run_id rs).insertionSort
          rankLEP).map storedProj).Perm
        ((insertResultRows db.next_result_id db.next_run_id rs).map storedProj) :=
      List.Perm.map storedProj
        (List.perm_insertionSort rankLEP (insertResultRows db.next_result_id db.next_run_id rs))
    rw [insertResultRows_map_proj rs db.next_result_id db.next_run_id] at hperm
    exact hperm
  · unfold get_screen_results
    have hs := List.sorted_insertionSort rankLEP
      ((saveCommitted db strategy rs executed_at).1.results.filter
        (fun s => s.run_id == (saveCommitted db strategy rs executed_at).2))
    exact hs.imp (fun h => of_decide_eq_true h)

/-- An example screener result ranked 2. -/
def resA : ScreenResult :=
  { symbol := "AAPL", rank := 2, contract_id := 1, price := some 10, volume := some 5,
    impl_volatility := none, exchange := some "NASDAQ", currency := some "USD",
    distance := none, benchmark := none, projection := none, legs_str := none }

/-- An example screener result ranked 1. -/
def resM : ScreenResult :=
  { symbol := "MSFT", rank := 1, contract_id := 2, price := some 20, volume := some 9,
    impl_volatility := none, exchange := some "NASDAQ", currency := some "USD",
    distance := none, benchmark := none, projection := none, legs_str := none }

/-- An example strategy. -/
def exStrat : ScreeningStrategy :=
  { name := "test_strategy", scan_code := "TOP_PERC_GAIN", filtersJson := "{}",
    bias := "long", style := "momentum" }

/-- The empty database produced by schema initialisation. -/
def emptyDb : ScreenDatabase :=
  { runs := [], results := [], next_run_id := 1, next_result_id := 1 }

/-- Witness for C1 at a concrete two-result save. -/
theorem save_then_read_roundtrip_witness :
    DBWF emptyDb ∧
    (∀ r ∈ ([resA, resM] : List ScreenResult), r.exchange.isSome) ∧
    ((get_screen_run (saveCommitted emptyDb exStrat [resA, resM] "2026-01-01").1
        (saveCommitted emptyDb exStrat [resA, resM] "2026-01-01").2).map
      (fun run => run.result_count)) = some ([resA, resM] : List ScreenResult).length := by
  refine ⟨by decide, by decide, ?_⟩
  exact (save_then_read_roundtrip emptyDb exStrat [resA, resM] "2026-01-01"
    (by decide) (by decide)).2.1

/-- The first row of an id-increasing list that carries a member id is
that member itself. -/
theorem find?_of_mem_pairwise (l : List StoredScreenResult)
    (hp : l.Pairwise (fun a b => a.id < b.id)) (s : StoredScreenResult) (hs : s ∈ l) :
    l.find? (fun x => x.id == s.id) = some s := by
  induction l with
  | nil => cases hs
  | cons a t ih =>
    rcases List.pairwise_cons.mp hp with ⟨ha, ht⟩
    rcases List.mem_cons.mp hs with hsa | hst
    · subst hsa
      rw [List.find?_cons_of_pos _ (by simp)]
    · have hlt : a.id < s.id := ha s hst
      rw [List.find?_cons_of_neg _ (by simp; omega)]
      exact ih ht hst

/-- C10: every result row written by a committing save_screen_run call
(one whose results all carry an exchange, so the NOT NULL constraint
passes) has NULL price_at_screen and volume_at_screen — the write path
never persists the price/volume carried on the in-memory ScreenResult —
and consequently a update_result_prices call on such a row, before any
external process populates price_at_screen, is a no-op that stores no
returns. -/
theorem save_writes_null_market_data (db : ScreenDatabase)
    (strategy : ScreeningStrategy) (rs : List ScreenResult) (executed_at : String)
    (hwf : DBWF db) (hex : ∀ r ∈ rs, r.exchange.isSome) :
    save_screen_run db strategy rs executed_at
      = Except.ok (saveCommitted db strategy rs executed_at) ∧
    ∀ s ∈ (saveCommitted db strategy rs executed_at).1.results,
      s.run_id = (saveCommitted db strategy rs executed_at).2 →
      s.price_at_screen = none ∧ s.volume_at_screen = none ∧
      ∀ p1 pw pm : Option ℚ,
        update_result_prices (saveCommitted db strategy rs executed_at).1 s.id p1 pw pm
          = Except.ok (saveCommitted db strategy rs executed_at).1 := by
  refine ⟨save_screen_run_ok db strategy rs executed_at hex, ?_⟩
  intro s hs hrun
  have hwf2 := saveCommitted_wf db strategy rs executed_at hwf
  have hs2 : s ∈ db.results ++ insertResultRows db.next_result_id db.next_run_id rs := hs
  have hrun2 : s.run_id = db.next_run_id := hrun
  have hsnew : s ∈ insertResultRows db.next_result_id db.next_run_id rs := by
    rcases List.mem_append.mp hs2 with hso | hsn
    · exfalso
      have := hwf.2.2.2.2 s hso
      omega
    · exact hsn
  obtain ⟨-, -, -, h4, h5⟩ :=
    insertResultRows_facts rs db.next_result_id db.next_run_id s hsnew
  refine ⟨h4, h5, ?_⟩
  intro p1 pw pm
  exact update_result_prices_noop _ s.id p1 pw pm s
    (find?_of_mem_pairwise _ hwf2.2.1 s hs) h4

/-- Witness for C10: the single row written by a concrete save has NULL
market data even though the in-memory result carried a price and volume,
and backfilling it is a no-op. -/
theorem save_writes_null_market_data_witness :
    DBWF emptyDb ∧
    (mkStoredRow 1 1 resA ∈ (saveCommitted emptyDb exStrat [resA] "2026-01-01").1.results) ∧
    (resA.price = some 10) ∧
    (mkStoredRow 1 1 resA).price_at_screen = none ∧
    update_result_prices (saveCommitted emptyDb exStrat [resA] "2026-01-01").1 1
        (some 105) (some 110) (some 95)
      = Except.ok (saveCommitted emptyDb exStrat [resA] "2026-01-01").1 := by
  refine ⟨by decide, by decide, rfl, rfl, ?_⟩
  have h := (save_writes_null_market_data emptyDb exStrat [resA] "2026-01-01"
    (by decide) (by decide)).2 (mkStoredRow 1 1 resA) (by decide) (by decide)
  exact h.2.2 (some 105) (some 110) (some 95)

/-! ### Stability machinery for the embedded ORDER BY (claims C6, C7) -/

/-- Two members of a list are equal or form a pair sublist one way or the
other. -/
theorem sublist_pair_of_mem {α : Type} {a b : α} {l : List α}
    (ha : a ∈ l) (hb : b ∈ l) :
    a = b ∨ [a, b].Sublist l ∨ [b, a].Sublist l := by
  induction l with
  | nil => cases ha
  | cons x t ih =>
    rcases List.mem_cons.mp ha with rfl | hat
    · rcases List.mem_cons.mp hb with rfl | hbt
      · exact Or.inl rfl
      · exact Or.inr (Or.inl ((List.singleton_sublist.mpr hbt).cons₂ a))
    · rcases List.mem_cons.mp hb with rfl | hbt
      · exact Or.inr (Or.inr ((List.singleton_sublist.mpr hat).cons₂ b))
      · rcases ih hat hbt with h | h | h
        · exact Or.inl h
        · exact Or.inr (Or.inl (h.cons x))
        · exact Or.inr (Or.inr (h.cons x))

/-- A list cannot contain the pair sublists [a, b] and [b, a] for distinct
elements each occurring at most once. -/
theorem not_pair_sublist_both {α : Type} [DecidableEq α] {a b : α} :
    ∀ {l : List α}, [a, b].Sublist l → [b, a].Sublist l → a ≠ b →
      l.count a ≤ 1 → l.count b ≤ 1 → False := by
  intro l
  induction l with
  | nil => intro hab _ _ _ _; cases hab
  | cons x t ih =>
    intro hab hba hne hca hcb
    by_cases hxa : a = x
    · subst hxa
      have hbat : [b, a].Sublist t := by
        rcases List.sublist_cons_iff.mp hba with h | ⟨r, hr, -⟩
        · exact h
        · injection hr with h1 h2
          exact absurd h1 (Ne.symm hne)
      have hat : a ∈ t := (hbat.subset) (by simp)
      rw [List.count_cons_self] at hca
      have hz : t.count a = 0 := by omega
      exact absurd hat (List.count_eq_zero.mp hz)
    · by_cases hxb : b = x
      · subst hxb
        have habt : [a, b].Sublist t := by
          rcases List.sublist_cons_iff.mp hab with h | ⟨r, hr, -⟩
          · exact h
          · injection hr with h1 h2
            exact absurd h1 hne
        have hbt : b ∈ t := (habt.subset) (by simp)
        rw [List.count_cons_self] at hcb
        have hz : t.count b = 0 := by omega
        exact absurd hbt (List.count_eq_zero.mp hz)
      · have habt : [a, b].Sublist t := by
          rcases List.sublist_cons_iff.mp hab with h | ⟨r, hr, -⟩
          · exact h
          · injection hr with h1 h2
            exact absurd h1 hxa
        have hbat : [b, a].Sublist t := by
          rcases List.sublist_cons_iff.mp hba with h | ⟨r, hr, -⟩
          · exact h
          · injection hr with h1 h2
            exact absurd h1 hxb
        rw [List.count_cons_of_ne hxa] at hca
        rw [List.count_cons_of_ne hxb] at hcb
        exact ih habt hbat hne hca hcb

/-- Stable sorting a list that is strictly ordered by a secondary relation
s yields output sorted by the relation, with equal-rank ties still ordered
by s (the input order): the tie-break behaviour of the embedded ORDER BY. -/
theorem insertionSort_pairwise_stable {α : Type} [DecidableEq α]
    (r : α → α → Prop) [DecidableRel r] (s : α → α → Prop)
    (htrans : ∀ a b c : α, r a b → r b c → r a c)
    (htot : ∀ a b : α, r a b ∨ r b a)
    (hasymm : ∀ a b : α, s a b → ¬ s b a)
    (l : List α) (hps : l.Pairwise s) :
    (l.insertionSort r).Pairwise (fun a b => r a b ∧ (r b a → s a b)) := by
  letI : IsTotal α r := ⟨htot⟩
  letI : IsTrans α r := ⟨fun a b c => htrans a b c⟩
  have hsorted : (l.insertionSort r).Pairwise r := List.sorted_insertionSort r l
  rw [List.pairwise_iff_forall_sublist]
  intro a b hab
  have hle : r a b := List.pairwise_iff_forall_sublist.mp hsorted hab
  refine ⟨hle, ?_⟩
  intro hba
  have hnodbl : ∀ x : α, ¬ ([x, x].Sublist l) := by
    intro x hxx
    exact hasymm x x (List.pairwise_iff_forall_sublist.mp hps hxx)
      (List.pairwise_iff_forall_sublist.mp hps hxx)
  have hcount : ∀ x : α, l.count x ≤ 1 := by
    intro x
    by_contra hc
    have h2 : 2 ≤ l.count x := by omega
    have := List.le_count_iff_replicate_sublist.mp h2
    exact hnodbl x (by simpa using this)
  have hal : a ∈ l := by
    have : a ∈ l.insertionSort r := hab.subset (by simp)
    simpa using this
  have hbl : b ∈ l := by
    have : b ∈ l.insertionSort r := hab.subset (by simp)
    simpa using this
  rcases sublist_pair_of_mem hal hbl with rfl | h | h
  · exfalso
    have h2 : 2 ≤ (l.insertionSort r).count a :=
      List.le_count_iff_replicate_sublist.mpr (by simpa [List.replicate] using hab)
    have h3 : (l.insertionSort r).count a ≤ 1 := by
      rw [(List.perm_insertionSort r l).count_eq a]
      exact hcount a
    omega
  · exact List.pairwise_iff_forall_sublist.mp hps h
  · exfalso
    have hne : a ≠ b := by
      intro heq
      subst heq
      have h2 : 2 ≤ l.count a :=
        List.le_count_iff_replicate_sublist.mpr (by simpa [List.replicate] using h)
      have := hcount a
      omega
    have hbaout : [b, a].Sublist (l.insertionSort r) :=
      List.pair_sublist_insertionSort hba h
    have hcaout : (l.insertionSort r).count a ≤ 1 := by
      rw [(List.perm_insertionSort r l).count_eq a]
      exact hcount a
    have hcbout : (l.insertionSort r).count b ≤ 1 := by
      rw [(List.perm_insertionSort r l).count_eq b]
      exact hcount b
    exact not_pair_sublist_both hab hbaout hne hcaout hcbout

/-! ### Recent runs (claim C7) -/

/-- runRecentLEP is the reversed timestamp order. -/
theorem runRecentLEP_iff (a b : ScreenRun) :
    runRecentLEP a b ↔ b.executed_at ≤ a.executed_at := by
  unfold runRecentLEP runRecentLe
  rw [Bool.not_eq_true', strLtB_false_iff]
  exact not_lt

/-- C7: get_recent_runs returns at most limit runs, each of them a stored
run passing the optional strategy filter, ordered newest first by
executed_at, and runs with equal executed_at appear in insertion order
(ascending id). -/
theorem get_recent_runs_spec (db : ScreenDatabase) (strategy_name : Option String)
    (limit : Nat) (hwf : DBWF db) :
    (get_recent_runs db strategy_name limit).length ≤ limit ∧
    (∀ r ∈ get_recent_runs db strategy_name limit,
      r ∈ db.runs ∧ runMatchesStrategy strategy_name r = true) ∧
    (get_recent_runs db strategy_name limit).Pairwise (fun a b =>
      b.executed_at < a.executed_at ∨
        (a.executed_at = b.executed_at ∧ a.id < b.id)) := by
  refine ⟨?_, ?_, ?_⟩
  · unfold get_recent_runs
    exact List.length_take_le _ _
  · intro r hr
    unfold get_recent_runs at hr
    have h1 : r ∈ (db.runs.filter (runMatchesStrategy strategy_name)).insertionSort
        runRecentLEP := List.mem_of_mem_take hr
    rw [List.mem_insertionSort] at h1
    exact ⟨(List.mem_filter.mp h1).1, (List.mem_filter.mp h1).2⟩
  · unfold get_recent_runs
    apply List.Pairwise.take
    have hstable := insertionSort_pairwise_stable runRecentLEP
      (fun a b => a.id < b.id)
      (fun a b c hab hbc => by
        rw [runRecentLEP_iff] at hab hbc ⊢
        exact le_trans hbc hab)
      (fun a b => by
        rw [runRecentLEP_iff, runRecentLEP_iff]
        exact le_total _ _)
      (fun a b h1 h2 => by omega)
      (db.runs.filter (runMatchesStrategy strategy_name))
      (hwf.1.filter _)
    refine hstable.imp ?_
    intro a b hab
    obtain ⟨h1, h2⟩ := hab
    rw [runRecentLEP_iff] at h1
    rcases lt_or_eq_of_le h1 with hlt | heq
    · exact Or.inl hlt
    · exact Or.inr ⟨heq.symm, h2 ((runRecentLEP_iff _ _).mpr (le_of_eq heq.symm))⟩

/-- A run sharing its timestamp with runA but inserted later. -/
def runB : ScreenRun :=
  { id := 2, strategy_name := "test_strategy", scan_code := "TOP",
    executed_at := "2026-01-01", result_count := 0, filters := some "{}",
    bias := "long", style := "momentum" }

/-- The first run with the shared timestamp. -/
def runA : ScreenRun :=
  { id := 1, strategy_name := "test_strategy", scan_code := "TOP",
    executed_at := "2026-01-01", result_count := 0, filters := some "{}",
    bias := "long", style := "momentum" }

/-- A later run. -/
def runC : ScreenRun :=
  { id := 3, strategy_name := "test_strategy", scan_code := "TOP",
    executed_at := "2026-02-01", result_count := 0, filters := some "{}",
    bias := "long", style := "momentum" }

/-- A database with two tied runs and a newer one. -/
def tieDb : ScreenDatabase :=
  { runs := [runA, runB, runC], results := [], next_run_id := 4, next_result_id := 1 }

/-- Witness for C7: with a timestamp tie, the newest run comes first and
the tied runs keep insertion order. -/
theorem get_recent_runs_spec_witness :
    DBWF tieDb ∧
    get_recent_runs tieDb none 10 = [runC, runA, runB] ∧
    (get_recent_runs tieDb none 10).Pairwise (fun a b =>
      b.executed_at < a.executed_at ∨
        (a.executed_at = b.executed_at ∧ a.id < b.id)) := by
  refine ⟨by decide, by decide, ?_⟩
  exact (get_recent_runs_spec tieDb none 10 (by decide)).2.2

/-! ### Top symbols (claim C6) -/

/-- A result row is in the query window when some run with its run_id
passes the strategy/cutoff filter. -/
def resultInWindow (db : ScreenDatabase) (strategy_name : Option String)
    (cutoff : String) (s : StoredScreenResult) : Bool :=
  db.runs.any (fun r => r.id == s.run_id && windowPred strategy_name cutoff r)

/-- symLEP is the String ≤ order. -/
theorem symLEP_iff (a b : String) : symLEP a b ↔ a ≤ b := by
  unfold symLEP symLe
  rw [Bool.not_eq_true', strLtB_false_iff]
  exact not_lt

/-- countDescLEP is the reversed count order. -/
theorem countDescLEP_iff (a b : String × Nat) : countDescLEP a b ↔ b.2 ≤ a.2 := by
  unfold countDescLEP countDescLe
  rw [decide_eq_true_eq]

instance : IsTrans String symLEP :=
  ⟨fun a b c h1 h2 => by
    rw [symLEP_iff] at h1 h2 ⊢
    exact le_trans h1 h2⟩

instance : IsTotal String symLEP :=
  ⟨fun a b => by
    rw [symLEP_iff, symLEP_iff]
    exact le_total a b⟩

instance : IsTrans (String × Nat) countDescLEP :=
  ⟨fun a b c h1 h2 => by
    rw [countDescLEP_iff] at h1 h2 ⊢
    exact le_trans h2 h1⟩

instance : IsTotal (String × Nat) countDescLEP :=
  ⟨fun a b => by
    rw [countDescLEP_iff, countDescLEP_iff]
    exact le_total b.2 a.2⟩

/-- In a run list with strictly increasing ids, counting rows that match a
fixed id and a predicate gives 1 or 0 according to whether such a row
exists. -/
theorem countP_id_window (runs : List ScreenRun)
    (hp : runs.Pairwise (fun a b => a.id < b.id)) (m : Nat) (W : ScreenRun → Bool) :
    runs.countP (fun r => r.id == m && W r)
      = if runs.any (fun r => r.id == m && W r) then 1 else 0 := by
  induction runs with
  | nil => simp
  | cons a t ih =>
    rcases List.pairwise_cons.mp hp with ⟨ha, ht⟩
    rw [List.countP_cons, List.any_cons]
    by_cases haid : (a.id == m) = true
    · have hgt : ∀ r ∈ t, (r.id == m && W r) = false := by
        intro r hr
        have h1 : a.id < r.id := ha r hr
        have h2 : a.id = m := by simpa using haid
        have h3 : (r.id == m) = false := by
          simp only [beq_eq_false_iff_ne, ne_eq]
          omega
        simp [h3]
      have hcz : t.countP (fun r => r.id == m && W r) = 0 := by
        rw [List.countP_eq_zero]
        intro r hr
        simp [hgt r hr]
      have haz : t.any (fun r => r.id == m && W r) = false := by
        rw [List.any_eq_false]
        intro r hr
        simp [hgt r hr]
      rw [hcz, haz]
      by_cases hw : W a = true
      · simp [haid, hw]
      · have hwf2 : W a = false := by simpa using hw
        simp [haid, hwf2]
    · have hai : (a.id == m) = false := by simpa using haid
      rw [ih ht]
      simp [hai]

/-- Counting joined rows whose result part satisfies P and whose run part
satisfies W counts exactly the result rows satisfying P that have an
owning run satisfying W, given unique run ids. -/
theorem sqlJoin_countP (db : ScreenDatabase)
    (hp : db.runs.Pairwise (fun a b => a.id < b.id))
    (P : StoredScreenResult → Bool) (W : ScreenRun → Bool) :
    (sqlJoin db).countP (fun p => P p.1 && W p.2)
      = db.results.countP
          (fun s => P s && db.runs.any (fun r => r.id == s.run_id && W r)) := by
  unfold sqlJoin
  induction db.results with
  | nil => simp
  | cons s t ih =>
    rw [List.flatMap_cons, List.countP_append, ih, List.countP_cons, Nat.add_comm]
    congr 1
    rw [List.countP_map, List.countP_filter]
    by_cases hP : P s = true
    · rw [List.countP_congr (q := fun r => r.id == s.run_id && W r)
        (fun r hr => by
          simp only [Function.comp_apply, hP, Bool.true_and]
          rw [Bool.and_comm])]
      rw [countP_id_window db.runs hp s.run_id W]
      simp only [hP, Bool.true_and]
    · have hf : P s = false := by simpa using hP
      rw [List.countP_eq_zero.mpr (fun r hr => by
        simp [Function.comp_apply, hf])]
      simp only [hf, Bool.false_and, Bool.false_eq_true, if_false]

/-- The per-symbol COUNT(*) over the joined window rows counts exactly the
result rows of that symbol whose owning run passes the window filter,
given unique run ids. -/
theorem topSymbolRows_count (db : ScreenDatabase) (strategy_name : Option String)
    (cutoff : String) (sym : String)
    (hp : db.runs.Pairwise (fun a b => a.id < b.id)) :
    (topSymbolRows db strategy_name cutoff).countP (fun q => q.1.symbol == sym)
      = db.results.countP
          (fun s => s.symbol == sym && resultInWindow db strategy_name cutoff s) := by
  unfold topSymbolRows
  rw [List.countP_filter]
  exact sqlJoin_countP db hp (fun s => s.symbol == sym) (windowPred strategy_name cutoff)

/-- The GROUP BY output rows are strictly ascending in symbol. -/
theorem symbolGroups_pairwise (db : ScreenDatabase) (strategy_name : Option String)
    (cutoff : String) :
    (symbolGroups db strategy_name cutoff).Pairwise (fun a b => a.1 < b.1) := by
  unfold symbolGroups
  rw [List.pairwise_map]
  have hsorted := List.sorted_insertionSort symLEP
    (((topSymbolRows db strategy_name cutoff).map (fun p => p.1.symbol)).dedup)
  have hnd : ((((topSymbolRows db strategy_name cutoff).map
      (fun p => p.1.symbol)).dedup).insertionSort symLEP).Nodup := by
    rw [(List.perm_insertionSort symLEP _).nodup_iff]
    exact List.nodup_dedup _
  rw [List.pairwise_iff_forall_sublist]
  intro a b hab
  have h1 : symLEP a b := List.pairwise_iff_forall_sublist.mp hsorted hab
  have h2 : a ≠ b := List.pairwise_iff_forall_sublist.mp hnd hab
  rw [symLEP_iff] at h1
  exact lt_of_le_of_ne h1 h2

/-- A result row carrying only a symbol. -/
def symRes (sym : String) : ScreenResult :=
  { symbol := sym, rank := 1, contract_id := 1, price := none, volume := none,
    impl_volatility := none, exchange := some "NASDAQ", currency := none,
    distance := none, benchmark := none, projection := none, legs_str := none }

/-- A run of the example database for the top-symbols property. -/
def topRun (i : Nat) : ScreenRun :=
  { id := i, strategy_name := "test_strategy", scan_code := "TOP",
    executed_at := "2026-09-01", result_count := 0, filters := some "{}",
    bias := "long", style := "momentum" }

/-- A database where AAPL appears in 3 runs and TSLA in 2. -/
def topDb : ScreenDatabase :=
  { runs := [topRun 1, topRun 2, topRun 3],
    results := [mkStoredRow 1 1 (symRes "AAPL"), mkStoredRow 2 2 (symRes "AAPL"),
                mkStoredRow 3 3 (symRes "AAPL"), mkStoredRow 4 1 (symRes "TSLA"),
                mkStoredRow 5 2 (symRes "TSLA")],
    next_run_id := 4, next_result_id := 6 }

/-- C6: get_top_symbols returns (symbol, appearance_count) pairs where the
count is the number of result rows of that symbol within the window
(optionally restricted to one strategy), at most limit of them, sorted
descending by count with ties in ascending symbol order (the fixed
deterministic secondary order of the implementation), each symbol at most
once; a symbol appearing in 3 runs is returned before one appearing in 2,
with counts 3 and 2. -/
theorem get_top_symbols_spec (db : ScreenDatabase) (strategy_name : Option String)
    (cutoff : String) (limit : Nat) (hwf : DBWF db) :
    (∀ p ∈ get_top_symbols db strategy_name cutoff limit,
      p.2 = db.results.countP
        (fun s => s.symbol == p.1 && resultInWindow db strategy_name cutoff s)) ∧
    (get_top_symbols db strategy_name cutoff limit).length ≤ limit ∧
    (get_top_symbols db strategy_name cutoff limit).Pairwise (fun a b =>
      b.2 < a.2 ∨ (a.2 = b.2 ∧ a.1 < b.1)) ∧
    ((get_top_symbols db strategy_name cutoff limit).map (fun p => p.1)).Nodup ∧
    get_top_symbols topDb none "2026-01-01" 10 = [("AAPL", 3), ("TSLA", 2)] := by
  refine ⟨?_, ?_, ?_, ?_, by decide⟩
  · intro p hp
    unfold get_top_symbols at hp
    have h1 : p ∈ (symbolGroups db strategy_name cutoff).insertionSort countDescLEP :=
      List.mem_of_mem_take hp
    rw [List.mem_insertionSort] at h1
    unfold symbolGroups at h1
    rcases List.mem_map.mp h1 with ⟨sym, hsym, hpe⟩
    subst hpe
    exact topSymbolRows_count db strategy_name cutoff sym hwf.1
  · unfold get_top_symbols
    exact List.length_take_le _ _
  · unfold get_top_symbols
    apply List.Pairwise.take
    have hstable := insertionSort_pairwise_stable countDescLEP
      (fun a b => a.1 < b.1)
      (fun a b c hab hbc => by
        rw [countDescLEP_iff] at hab hbc ⊢
        exact le_trans hbc hab)
      (fun a b => by
        rw [countDescLEP_iff, countDescLEP_iff]
        exact le_total b.2 a.2)
      (fun a b h1 h2 => absurd h1 (lt_asymm h2))
      (symbolGroups db strategy_name cutoff)
      (symbolGroups_pairwise db strategy_name cutoff)
    refine hstable.imp ?_
    intro a b hab
    obtain ⟨h1, h2⟩ := hab
    rw [countDescLEP_iff] at h1
    rcases lt_or_eq_of_le h1 with hlt | heq
    · exact Or.inl hlt
    · exact Or.inr ⟨heq.symm, h2 ((countDescLEP_iff _ _).mpr (le_of_eq heq.symm))⟩
  · unfold get_top_symbols
    have hnd : ((symbolGroups db strategy_name cutoff).map (fun p => p.1)).Nodup := by
      unfold symbolGroups
      rw [List.map_map]
      have hid : ((fun (p : String × Nat) => p.1) ∘ (fun sym =>
          (sym, (topSymbolRows db strategy_name cutoff).countP
            (fun p => p.1.symbol == sym)))) = fun sym => sym := rfl
      rw [hid, List.map_id']
      rw [(List.perm_insertionSort symLEP _).nodup_iff]
      exact List.nodup_dedup _
    have hnd2 : (((symbolGroups db strategy_name cutoff).insertionSort
        countDescLEP).map (fun p => p.1)).Nodup := by
      rw [((List.perm_insertionSort countDescLEP _).map (fun p => p.1)).nodup_iff]
      exact hnd
    rw [List.map_take]
    exact List.Nodup.sublist (List.take_sublist _ _) hnd2

/-- Witness for C6 on the concrete AAPL/TSLA database. -/
theorem get_top_symbols_spec_witness :
    DBWF topDb ∧
    (get_top_symbols topDb none "2026-01-01" 10).Pairwise (fun a b =>
      b.2 < a.2 ∨ (a.2 = b.2 ∧ a.1 < b.1)) := by
  refine ⟨by decide, ?_⟩
  exact (get_top_symbols_spec topDb none "2026-01-01" 10 (by decide)).2.2.1

/-! ### Strategy statistics (claim C5) -/

/-- C5 counterexample: a strategy with no matching runs gets NULL, not a
zero value, in the mean-return fields of the statistics record. -/
theorem strategy_statistics_zero_cex :
    (get_strategy_statistics emptyDb "S" "2026-01-01" 30).total_runs = 0 ∧
    (get_strategy_statistics emptyDb "S" "2026-01-01" 30).avg_return_1d = none ∧
    (get_strategy_statistics emptyDb "S" "2026-01-01" 30).avg_return_1d ≠ some 0 := by
  refine ⟨by decide, by decide, by decide⟩

/-- filterMap id keeps every element of an all-some list. -/
theorem filterMap_id_all_some (xs : List (Option ℚ)) (h : ∀ x ∈ xs, x.isSome) :
    xs.filterMap id = xs.map (fun x => x.getD 0) := by
  induction xs with
  | nil => rfl
  | cons x t ih =>
    have hx : x.isSome := h x (by simp)
    rcases x with _ | v
    · cases hx
    · rw [List.filterMap_cons, List.map_cons]
      simp only [id_eq, Option.getD_some]
      rw [ih (fun y hy => h y (by simp [hy]))]

/-- SQL AVG over a mapped nullable column: NULL values are ignored, the
mean divides the sum of the present values by their count, and the result
is NULL when no value is present. -/
theorem sqlAvg_map_eq {α : Type} (rows : List α) (f : α → Option ℚ) :
    sqlAvg (rows.map f)
      = (if rows.filterMap f = [] then none
         else some ((rows.filterMap f).sum / ((rows.filterMap f).length : ℚ))) := by
  unfold sqlAvg
  rw [List.filterMap_map, Function.id_comp]
  by_cases he : rows.filterMap f = []
  · rw [he]
    simp
  · rw [if_neg (fun h0 => he (List.length_eq_zero.mp h0)), if_neg he]

/-- No result-level rows survive when no run matches the window. -/
theorem statRows_nil_of_statRuns_nil (db : ScreenDatabase) (strategy_name : String)
    (cutoff : String) (h : statRuns db strategy_name cutoff = []) :
    statRows db strategy_name cutoff = [] := by
  unfold statRows
  rw [List.filter_eq_nil_iff]
  intro p hp hbool
  have hmem : p.2 ∈ db.runs := by
    unfold sqlJoin at hp
    rcases List.mem_flatMap.mp hp with ⟨s0, hs0, hp2⟩
    rcases List.mem_map.mp hp2 with ⟨r, hr, hpr⟩
    rw [← hpr]
    exact (List.mem_filter.mp hr).1
  have hw : statWindow strategy_name cutoff p.2 = true :=
    (Bool.and_eq_true_iff.mp hbool).1
  have : p.2 ∈ statRuns db strategy_name cutoff :=
    List.mem_filter.mpr ⟨hmem, hw⟩
  rw [h] at this
  cases this

/-- A run of the aggregate example for strategy S. -/
def statRun (i : Nat) : ScreenRun :=
  { id := i, strategy_name := "S", scan_code := "TOP",
    executed_at := "2026-09-01", result_count := 1, filters := some "{}",
    bias := "long", style := "momentum" }

/-- A backfilled result row with a given return_1d. -/
def statRow (i : Nat) (v : ℚ) : StoredScreenResult :=
  { id := i, run_id := i, symbol := "AAPL", exchange := some "NASDAQ", contract_id := 1,
    rank := 1, distance := none, benchmark := none, price_at_screen := some 100,
    volume_at_screen := none, price_1d_later := none, price_1w_later := none,
    price_1m_later := none, return_1d := some v, return_1w := none, return_1m := none }

/-- Three runs of strategy S contributing return_1d values 5, -3, 5. -/
def statsDb : ScreenDatabase :=
  { runs := [statRun 1, statRun 2, statRun 3],
    results := [statRow 1 5, statRow 2 (-3), statRow 3 5],
    next_run_id := 4, next_result_id := 4 }

/-- C5 (amended): get_strategy_statistics returns (a) run-level count, sum
and mean of result_count over the strategy runs within the cutoff, and
(b) over the strategy result rows with non-null return_1d: winners, losers
and total counts, the mean of return_1d over those rows, and for each of
the 1w and 1m horizons the mean over the non-null values of that horizon
among those rows (SQL AVG ignores NULLs, so it divides by the non-null
count, and is NULL when no value is present); a strategy with no matching
runs gets zeroes for every count and sum field but NULL (not zero) for
the mean-return fields, and no error; three runs contributing return_1d
values [5, -3, 5] yield winners_1d = 2, losers_1d = 1,
total_with_backtest_data = 3. -/
theorem get_strategy_statistics_spec (db : ScreenDatabase) (strategy_name : String)
    (cutoff : String) (days_back : Nat) (hwf : DBWF db) :
    (get_strategy_statistics db strategy_name cutoff days_back).total_runs
        = (statRuns db strategy_name cutoff).length ∧
    (get_strategy_statistics db strategy_name cutoff days_back).total_results
        = ((statRuns db strategy_name cutoff).map (fun r => r.result_count)).sum ∧
    (get_strategy_statistics db strategy_name cutoff days_back).avg_results_per_run
        = (if statRuns db strategy_name cutoff = [] then 0
           else ((statRuns db strategy_name cutoff).map
              (fun r => (r.result_count : ℚ))).sum
             / ((statRuns db strategy_name cutoff).length : ℚ)) ∧
    (get_strategy_statistics db strategy_name cutoff days_back).winners_1d
        = db.results.countP (fun s => optPos s.return_1d
            && db.runs.any (fun r => r.id == s.run_id && statWindow strategy_name cutoff r)) ∧
    (get_strategy_statistics db strategy_name cutoff days_back).losers_1d
        = db.results.countP (fun s => optNeg s.return_1d
            && db.runs.any (fun r => r.id == s.run_id && statWindow strategy_name cutoff r)) ∧
    (get_strategy_statistics db strategy_name cutoff days_back).total_with_backtest_data
        = db.results.countP (fun s => s.return_1d.isSome
            && db.runs.any (fun r => r.id == s.run_id && statWindow strategy_name cutoff r)) ∧
    (statRows db strategy_name cutoff ≠ [] →
      (get_strategy_statistics db strategy_name cutoff days_back).avg_return_1d
        = some (((statRows db strategy_name cutoff).map
            (fun p => p.1.return_1d.getD 0)).sum
          / ((statRows db strategy_name cutoff).length : ℚ))) ∧
    (get_strategy_statistics db strategy_name cutoff days_back).avg_return_1w
        = (if (statRows db strategy_name cutoff).filterMap (fun p => p.1.return_1w) = []
           then none
           else some (((statRows db strategy_name cutoff).filterMap
                (fun p => p.1.return_1w)).sum
             / (((statRows db strategy_name cutoff).filterMap
                (fun p => p.1.return_1w)).length : ℚ))) ∧
    (get_strategy_statistics db strategy_name cutoff days_back).avg_return_1m
        = (if (statRows db strategy_name cutoff).filterMap (fun p => p.1.return_1m) = []
           then none
           else some (((statRows db strategy_name cutoff).filterMap
                (fun p => p.1.return_1m)).sum
             / (((statRows db strategy_name cutoff).filterMap
                (fun p => p.1.return_1m)).length : ℚ))) ∧
    (statRuns db strategy_name cutoff = [] →
      (get_strategy_statistics db strategy_name cutoff days_back).total_runs = 0 ∧
      (get_strategy_statistics db strategy_name cutoff days_back).total_results = 0 ∧
      (get_strategy_statistics db strategy_name cutoff days_back).avg_results_per_run = 0 ∧
      (get_strategy_statistics db strategy_name cutoff days_back).winners_1d = 0 ∧
      (get_strategy_statistics db strategy_name cutoff days_back).losers_1d = 0 ∧
      (get_strategy_statistics db strategy_name cutoff days_back).total_with_backtest_data
        = 0 ∧
      (get_strategy_statistics db strategy_name cutoff days_back).avg_return_1d = none ∧
      (get_strategy_statistics db strategy_name cutoff days_back).avg_return_1w = none ∧
      (get_strategy_statistics db strategy_name cutoff days_back).avg_return_1m = none) ∧
    (get_strategy_statistics statsDb "S" "2026-01-01" 30).winners_1d = 2 ∧
    (get_strategy_statistics statsDb "S" "2026-01-01" 30).losers_1d = 1 ∧
    (get_strategy_statistics statsDb "S" "2026-01-01" 30).total_with_backtest_data = 3 := by
  refine ⟨?_, ?_, ?_, ?_, ?_, ?_, ?_, ?_, ?_, ?_, by decide, by decide, by decide⟩
  · rfl
  · simp only [get_strategy_statistics]
    by_cases he : (statRuns db strategy_name cutoff).isEmpty
    · rw [if_pos he, List.isEmpty_iff.mp he]
      rfl
    · rw [if_neg he]
      rfl
  · simp only [get_strategy_statistics]
    by_cases he : (statRuns db strategy_name cutoff).isEmpty
    · rw [if_pos he, if_pos (List.isEmpty_iff.mp he)]
      rfl
    · rw [if_neg he, if_neg (fun hnil => he (List.isEmpty_iff.mpr hnil))]
      rfl
  · show (statRows db strategy_name cutoff).countP (fun p => optPos p.1.return_1d) = _
    unfold statRows
    rw [List.countP_filter]
    rw [List.countP_congr
      (q := fun p => optPos p.1.return_1d && statWindow strategy_name cutoff p.2)
      (fun p hp => by rcases hx : p.1.return_1d with _ | v <;> simp [optPos, hx])]
    exact sqlJoin_countP db hwf.1 (fun s => optPos s.return_1d)
      (statWindow strategy_name cutoff)
  · show (statRows db strategy_name cutoff).countP (fun p => optNeg p.1.return_1d) = _
    unfold statRows
    rw [List.countP_filter]
    rw [List.countP_congr
      (q := fun p => optNeg p.1.return_1d && statWindow strategy_name cutoff p.2)
      (fun p hp => by rcases hx : p.1.return_1d with _ | v <;> simp [optNeg, hx])]
    exact sqlJoin_countP db hwf.1 (fun s => optNeg s.return_1d)
      (statWindow strategy_name cutoff)
  · show (statRows db strategy_name cutoff).countP (fun p => p.1.return_1d.isSome) = _
    unfold statRows
    rw [List.countP_filter]
    rw [List.countP_congr
      (q := fun p => p.1.return_1d.isSome && statWindow strategy_name cutoff p.2)
      (fun p hp => by rcases hx : p.1.return_1d with _ | v <;> simp [hx])]
    exact sqlJoin_countP db hwf.1 (fun s => s.return_1d.isSome)
      (statWindow strategy_name cutoff)
  · intro hne
    show sqlAvg ((statRows db strategy_name cutoff).map (fun p => p.1.return_1d)) = _
    have hall : ∀ x ∈ (statRows db strategy_name cutoff).map (fun p => p.1.return_1d),
        x.isSome := by
      intro x hx
      rcases List.mem_map.mp hx with ⟨p, hp, rfl⟩
      unfold statRows at hp
      exact (Bool.and_eq_true_iff.mp (List.mem_filter.mp hp).2).2
    unfold sqlAvg
    rw [filterMap_id_all_some _ hall, List.map_map]
    have hlen : ((statRows db strategy_name cutoff).map
        ((fun x => x.getD 0) ∘ (fun p => p.1.return_1d))).length
        = (statRows db strategy_name cutoff).length := List.length_map _ _
    rw [if_neg (by
      rw [hlen]
      exact fun h0 => hne (List.length_eq_zero.mp h0))]
    rw [hlen]
    rfl
  · show sqlAvg ((statRows db strategy_name cutoff).map (fun p => p.1.return_1w)) = _
    exact sqlAvg_map_eq (statRows db strategy_name cutoff) (fun p => p.1.return_1w)
  · show sqlAvg ((statRows db strategy_name cutoff).map (fun p => p.1.return_1m)) = _
    exact sqlAvg_map_eq (statRows db strategy_name cutoff) (fun p => p.1.return_1m)
  · intro hr
    have hrows := statRows_nil_of_statRuns_nil db strategy_name cutoff hr
    simp only [get_strategy_statistics, hr, hrows]
    simp [sqlAvg]

/-- Witness for the amended C5 on the three-run example database. -/
theorem get_strategy_statistics_spec_witness :
    DBWF statsDb ∧
    (get_strategy_statistics statsDb "S" "2026-01-01" 30).winners_1d
      = statsDb.results.countP (fun s => optPos s.return_1d
          && statsDb.runs.any (fun r => r.id == s.run_id && statWindow "S" "2026-01-01" r)) := by
  refine ⟨by decide, ?_⟩
  exact (get_strategy_statistics_spec statsDb "S" "2026-01-01" 30 (by decide)).2.2.2.1

end Falcon
